import Mathlib

/-!
Verification development for the enterprise password manager server
(`src/server/src/handlers`, `src/server/src/db/schema.ts`).

The database is modelled as an in-memory `Store` of rows (one list per
table, plus a fresh-id counter standing for the serial primary keys); each
handler is a pure function from its input and the store to an
`Except Err` result, mirroring the TypeScript handler's sequence of
queries, checks and the final insert.  Timestamp columns
(`created_at`/`updated_at`) are omitted: no handler logic depends on them.

Node's cryptographic primitives (`createHash('sha256')`,
`createCipheriv('aes-256-cbc')`) are external library code, not code of
this repository; they are abstracted as the fields of a `CryptoPrim`
structure, while the repository's own envelope construction (hex encoding
of the random IV, the `iv + ':' + ciphertext` layout, hex-decoding the
stored key, hashing `password + key`) is modelled concretely.  Calls to
`randomBytes` are modelled by passing the drawn bytes as an explicit
argument.
-/

/-- Permission levels of the `permission_level` pg enum in
`src/server/src/db/schema.ts`. -/
inductive PermissionLevel where
  | read
  | write
  | admin
deriving DecidableEq, Repr

/-- Row of `usersTable` (timestamps omitted). -/
structure UserRow where
  id : Nat
  email : String
  password_hash : String
  first_name : String
  last_name : String
  two_factor_enabled : Bool
  two_factor_secret : Option String
deriving DecidableEq, Repr

/-- Row of `vaultsTable` (timestamps omitted). -/
structure Vault where
  id : Nat
  name : String
  description : Option String
  owner_id : Nat
  encryption_key : String
deriving DecidableEq, Repr

/-- Row of `categoriesTable` (timestamp omitted). -/
structure Category where
  id : Nat
  name : String
  vault_id : Nat
deriving DecidableEq, Repr

/-- Row of `passwordEntriesTable` (timestamps omitted). -/
structure PasswordEntry where
  id : Nat
  title : String
  username : Option String
  encrypted_password : String
  url : Option String
  notes : Option String
  vault_id : Nat
  category_id : Option Nat
  created_by : Nat
deriving DecidableEq, Repr

/-- Row of `secureNotesTable` (timestamps omitted). -/
structure SecureNote where
  id : Nat
  title : String
  encrypted_content : String
  vault_id : Nat
  category_id : Option Nat
  created_by : Nat
deriving DecidableEq, Repr

/-- Row of `creditCardsTable` (timestamps omitted). -/
structure CreditCard where
  id : Nat
  title : String
  cardholder_name : String
  encrypted_card_number : String
  encrypted_cvv : String
  expiry_month : Nat
  expiry_year : Nat
  vault_id : Nat
  category_id : Option Nat
  created_by : Nat
deriving DecidableEq, Repr

/-- Row of `vaultSharingTable` (timestamp omitted). -/
structure VaultSharing where
  id : Nat
  vault_id : Nat
  shared_with_user_id : Nat
  shared_by_user_id : Nat
  permission_level : PermissionLevel
deriving DecidableEq, Repr

/-- The persistent store: one list per table of
`src/server/src/db/schema.ts`, plus a single fresh-id counter modelling
the serial primary keys (the real database has one serial per table; a
shared counter is an equivalent source of fresh ids). -/
structure Store where
  users : List UserRow
  vaults : List Vault
  categories : List Category
  passwordEntries : List PasswordEntry
  secureNotes : List SecureNote
  creditCards : List CreditCard
  vaultSharing : List VaultSharing
  nextId : Nat
deriving DecidableEq, Repr

/-- The empty database. -/
def emptyStore : Store :=
  { users := [], vaults := [], categories := [], passwordEntries := []
    secureNotes := [], creditCards := [], vaultSharing := [], nextId := 1 }

/-- The distinct error conditions thrown by the handlers (each constructor
stands for one `throw new Error(...)` site family; the secure-note
handler words its permission failure as a write-access message, same
kind). -/
inductive Err where
  | vaultNotFound
  | userNotFound
  | ownerNotFound
  | insufficientPermissions
  | categoryNotFound
  | targetUserNotFound
  | sharingUserNotFound
  | cannotShareWithSelf
  | cannotShareWithOwner
  | alreadyShared
  | invalidKeyLength
deriving DecidableEq, Repr

/-! ## Hex encoding and decoding (Node `Buffer` hex semantics) -/

/-- Lower-case hex digit for a value below 16, as Node's
`buffer.toString('hex')` produces. -/
def hexDigitChar (n : Nat) : Char :=
  if n < 10 then Char.ofNat (48 + n) else Char.ofNat (87 + n)

/-- Two hex digits of one byte. -/
def byteToHex (b : Nat) : List Char :=
  [hexDigitChar (b / 16), hexDigitChar (b % 16)]

/-- `buffer.toString('hex')` of a byte list. -/
def bytesToHexChars (bs : List Nat) : List Char :=
  (bs.map byteToHex).flatten

/-- `buffer.toString('hex')` as a `String`. -/
def bytesToHex (bs : List Nat) : String :=
  String.mk (bytesToHexChars bs)

/-- Value of a hex digit character, if it is one. -/
def hexDigitVal? (c : Char) : Option Nat :=
  if 48 ≤ c.toNat ∧ c.toNat ≤ 57 then some (c.toNat - 48)
  else if 97 ≤ c.toNat ∧ c.toNat ≤ 102 then some (c.toNat - 87)
  else if 65 ≤ c.toNat ∧ c.toNat ≤ 70 then some (c.toNat - 55)
  else none

/-- `Buffer.from(str, 'hex')` on a character list: decodes hex pairs and
truncates at the first invalid or incomplete pair, as Node documents. -/
def hexDecodeTruncChars : List Char → List Nat
  | c1 :: c2 :: rest =>
    match hexDigitVal? c1, hexDigitVal? c2 with
    | some h, some l => (16 * h + l) :: hexDecodeTruncChars rest
    | _, _ => []
  | _ => []

/-- `Buffer.from(str, 'hex')` on a `String`. -/
def hexDecodeTrunc (s : String) : List Nat :=
  hexDecodeTruncChars s.data

/-- Whether a string is exactly 64 hexadecimal characters. -/
def isHex64 (s : String) : Bool :=
  s.data.length == 64 && s.data.all (fun c => (hexDigitVal? c).isSome)

/-! ## External cryptographic primitives (Node `crypto`) -/

/-- The Node `crypto` primitives used by the handlers, abstracted: a
SHA-256 digest (32 bytes) and an AES-256-CBC encryption taking key bytes,
IV bytes and the UTF-8 plaintext and returning the hex ciphertext.  The
repository's own envelope construction is modelled concretely on top of
these. -/
structure CryptoPrim where
  sha256bytes : String → List Nat
  aes256cbc : List Nat → List Nat → String → String
  sha256len : ∀ s, (sha256bytes s).length = 32

/-- A concrete primitive backend used to evaluate the model on closed
inputs (theorems about the handlers quantify over the backend where the
backend matters). -/
def cpTest : CryptoPrim :=
  { sha256bytes := fun _ => List.replicate 32 0
    aes256cbc := fun _ _ _ => ""
    sha256len := fun _ => List.length_replicate 32 0 }

/-! ## Encryption helpers of the three item handlers -/

/-- `encryptPassword` of `create_password_entry`:
`createHash('sha256').update(password + encryptionKey).digest('hex')`.
A deterministic hash of the pair: no nonce, no randomness argument. -/
def encryptPassword (cp : CryptoPrim) (password encryptionKey : String) : String :=
  bytesToHex (cp.sha256bytes (password ++ encryptionKey))

/-- `encryptContent` of `create_secure_note`: hex-decodes the stored key
(`Buffer.from(key, 'hex')`), uses it raw as the AES-256-CBC key (Node's
`createCipheriv` throws unless the decoded key is exactly 32 bytes),
generates a 16-byte random IV (passed here as `iv`) and returns
`iv.toString('hex') + ':' + ciphertext`. -/
def encryptContent (cp : CryptoPrim) (iv : List Nat) (content encryptionKey : String) :
    Except Err String :=
  let key := hexDecodeTrunc encryptionKey
  if key.length == 32 then
    Except.ok (bytesToHex iv ++ ":" ++ cp.aes256cbc key iv content)
  else
    Except.error Err.invalidKeyLength

/-- `encryptData` of `create_credit_card`: a 16-byte random IV (passed as
`iv`), key = SHA-256 digest of the stored key material (always 32 bytes,
so this cipher construction cannot fail), envelope
`iv.toString('hex') + ':' + ciphertext`. -/
def encryptData (cp : CryptoPrim) (iv : List Nat) (data key : String) : String :=
  bytesToHex iv ++ ":" ++ cp.aes256cbc (cp.sha256bytes key) iv data

/-! ## JS truthiness helpers used by the handlers -/

/-- `x || null` on a nullable string: the empty string is falsy. -/
def orNullStr : Option String → Option String
  | some "" => none
  | x => x

/-- Truthiness of a nullable number: `undefined`, `null` and `0` are
falsy (`if (input.category_id)`). -/
def truthyNat : Option Nat → Bool
  | none => false
  | some n => n != 0

/-- `x || null` on a nullable number: `0` becomes `null`. -/
def orNullNat (x : Option Nat) : Option Nat :=
  if truthyNat x then x else none

/-! ## Handler inputs (Zod schemas of `src/server/src/schema.ts`) -/

/-- `createVaultInputSchema`. -/
structure CreateVaultInput where
  name : String
  description : Option String
  owner_id : Nat
deriving DecidableEq, Repr

/-- `createCategoryInputSchema`. -/
structure CreateCategoryInput where
  name : String
  vault_id : Nat
deriving DecidableEq, Repr

/-- `createPasswordEntryInputSchema`. -/
structure CreatePasswordEntryInput where
  title : String
  username : Option String
  password : String
  url : Option String
  notes : Option String
  vault_id : Nat
  category_id : Option Nat
  created_by : Nat
deriving DecidableEq, Repr

/-- `createSecureNoteInputSchema`. -/
structure CreateSecureNoteInput where
  title : String
  content : String
  vault_id : Nat
  category_id : Option Nat
  created_by : Nat
deriving DecidableEq, Repr

/-- `createCreditCardInputSchema`. -/
structure CreateCreditCardInput where
  title : String
  cardholder_name : String
  card_number : String
  cvv : String
  expiry_month : Nat
  expiry_year : Nat
  vault_id : Nat
  category_id : Option Nat
  created_by : Nat
deriving DecidableEq, Repr

/-- `shareVaultInputSchema`. -/
structure ShareVaultInput where
  vault_id : Nat
  shared_with_user_id : Nat
  shared_by_user_id : Nat
  permission_level : PermissionLevel
deriving DecidableEq, Repr

/-! ## Shared query fragments of the handlers -/

/-- The `vaultSharingTable` query shared by `create_password_entry` and
`create_credit_card` (and the left-join condition of
`create_secure_note`): rows for (vault, user) whose `permission_level`
is `write` or `admin`. -/
def sharedWriteRows (s : Store) (vaultId userId : Nat) : List VaultSharing :=
  s.vaultSharing.filter fun r =>
    r.vault_id == vaultId && r.shared_with_user_id == userId &&
      (r.permission_level == PermissionLevel.write ||
       r.permission_level == PermissionLevel.admin)

/-- The `vaultSharingTable` query of `share_vault`: rows for
(vault, user) whose `permission_level` is `admin`. -/
def adminShareRows (s : Store) (vaultId userId : Nat) : List VaultSharing :=
  s.vaultSharing.filter fun r =>
    r.vault_id == vaultId && r.shared_with_user_id == userId &&
      r.permission_level == PermissionLevel.admin

/-- The owner-or-shared-write gate of `createPasswordEntry` and
`createCreditCard`: `hasAccess` is owner equality, and otherwise the
write/admin sharing query must be nonempty. -/
def writeAccessGate (s : Store) (vaultId userId : Nat) (vault : Vault) : Bool :=
  vault.owner_id == userId || !(sharedWriteRows s vaultId userId).isEmpty

/-- The owner-or-admin gate of `shareVault` (`hasAdminAccess`). -/
def adminAccessGate (s : Store) (vaultId userId : Nat) (vault : Vault) : Bool :=
  vault.owner_id == userId || !(adminShareRows s vaultId userId).isEmpty

/-- The duplicate-grant query of `shareVault`: existing sharing records
for the (vault, target user) pair. -/
def pairShareRows (s : Store) (vaultId targetId : Nat) : List VaultSharing :=
  s.vaultSharing.filter fun r =>
    r.vault_id == vaultId && r.shared_with_user_id == targetId

/-- The `categoriesTable` query shared by the three item handlers: rows
whose id is the supplied category id and whose `vault_id` is the target
vault. -/
def categoryRows (s : Store) (categoryId vaultId : Nat) : List Category :=
  s.categories.filter fun c => c.id == categoryId && c.vault_id == vaultId

/-- The category precondition of the three item handlers:
`if (input.category_id) { ...must find a matching row... }` (JS
truthiness: absent, null and `0` skip the check). -/
def categoryCheck (s : Store) (categoryId : Option Nat) (vaultId : Nat) : Bool :=
  if truthyNat categoryId then
    !(categoryRows s (categoryId.getD 0) vaultId).isEmpty
  else
    true

/-- The access query of `create_secure_note`: `vaultsTable` left-joined
with `vaultSharingTable` on (vault id, acting user, level write/admin),
then filtered by `id == vault_id AND (owner_id == user OR
sharing.shared_with_user_id == user)`; with SQL null semantics the
second disjunct is false on an unmatched (null) join row. -/
def noteJoinGroup (s : Store) (userId : Nat) (v : Vault) :
    List (Vault × Option VaultSharing) :=
  match sharedWriteRows s v.id userId with
  | [] => [(v, (none : Option VaultSharing))]
  | ms => ms.map fun r => (v, some r)

/-- The post-join filter of the access query: SQL null semantics make the
`shared_with_user_id` disjunct false on an unmatched (null) join row. -/
def noteRowPred (vaultId userId : Nat) (vr : Vault × Option VaultSharing) : Bool :=
  vr.1.id == vaultId &&
    (vr.1.owner_id == userId ||
      (match vr.2 with
       | some r => r.shared_with_user_id == userId
       | none => false))

def noteAccessRows (s : Store) (vaultId userId : Nat) :
    List (Vault × Option VaultSharing) :=
  ((s.vaults.map (noteJoinGroup s userId)).flatten).filter (noteRowPred vaultId userId)

/-! ## Handlers -/

/-- `createVault` (`create_vault.ts`): verify the owner exists, generate
`randomBytes(32).toString('hex')` as the encryption key (the 32 drawn
bytes are the `entropy` argument), insert and return the full row. -/
def createVault (entropy : List Nat) (input : CreateVaultInput) (s : Store) :
    Except Err (Vault × Store) :=
  match s.users.find? (fun u => u.id == input.owner_id) with
  | none => Except.error Err.ownerNotFound
  | some _ =>
    let vault : Vault :=
      { id := s.nextId, name := input.name
        description := orNullStr input.description
        owner_id := input.owner_id
        encryption_key := bytesToHex entropy }
    Except.ok (vault, { s with vaults := s.vaults ++ [vault], nextId := s.nextId + 1 })

/-- `createCategory` (handler importing `categoriesTable, vaultsTable`):
verify the vault exists, then insert.  The input carries no acting user
and the handler performs no permission check. -/
def createCategory (input : CreateCategoryInput) (s : Store) :
    Except Err (Category × Store) :=
  match s.vaults.find? (fun v => v.id == input.vault_id) with
  | none => Except.error Err.vaultNotFound
  | some _ =>
    let cat : Category := { id := s.nextId, name := input.name, vault_id := input.vault_id }
    Except.ok (cat, { s with categories := s.categories ++ [cat], nextId := s.nextId + 1 })

/-- `createPasswordEntry` (`create_password_entry` handler): vault lookup
(`Vault not found`), then the owner-or-shared write gate
(`Insufficient permissions...`), then the category check
(`Category not found...`), then `encryptPassword` and the insert.  It
performs no acting-user existence check. -/
def createPasswordEntry (cp : CryptoPrim) (input : CreatePasswordEntryInput) (s : Store) :
    Except Err (PasswordEntry × Store) :=
  match s.vaults.find? (fun v => v.id == input.vault_id) with
  | none => Except.error Err.vaultNotFound
  | some vault =>
    if writeAccessGate s input.vault_id input.created_by vault then
      if categoryCheck s input.category_id input.vault_id then
        let entry : PasswordEntry :=
          { id := s.nextId, title := input.title
            username := orNullStr input.username
            encrypted_password := encryptPassword cp input.password vault.encryption_key
            url := orNullStr input.url
            notes := orNullStr input.notes
            vault_id := input.vault_id
            category_id := orNullNat input.category_id
            created_by := input.created_by }
        Except.ok (entry,
          { s with passwordEntries := s.passwordEntries ++ [entry], nextId := s.nextId + 1 })
      else Except.error Err.categoryNotFound
    else Except.error Err.insufficientPermissions

/-- `createSecureNote` (`create_secure_note.ts`): vault lookup
(`Vault not found`), user lookup (`User not found`), the joined access
query (`User does not have write access to this vault`), the category
check, then `encryptContent` (which throws on a key that does not decode
to 32 bytes) and the insert. -/
def createSecureNote (cp : CryptoPrim) (iv : List Nat) (input : CreateSecureNoteInput)
    (s : Store) : Except Err (SecureNote × Store) :=
  match s.vaults.find? (fun v => v.id == input.vault_id) with
  | none => Except.error Err.vaultNotFound
  | some vaultData =>
    match s.users.find? (fun u => u.id == input.created_by) with
    | none => Except.error Err.userNotFound
    | some _ =>
      if (noteAccessRows s input.vault_id input.created_by).isEmpty then
        Except.error Err.insufficientPermissions
      else if categoryCheck s input.category_id input.vault_id then
        match encryptContent cp iv input.content vaultData.encryption_key with
        | Except.error e => Except.error e
        | Except.ok encryptedContent =>
          let note : SecureNote :=
            { id := s.nextId, title := input.title
              encrypted_content := encryptedContent
              vault_id := input.vault_id
              category_id := orNullNat input.category_id
              created_by := input.created_by }
          Except.ok (note,
            { s with secureNotes := s.secureNotes ++ [note], nextId := s.nextId + 1 })
      else Except.error Err.categoryNotFound

/-- `createCreditCard` (`create_credit_card` handler): user lookup first
(`User not found`), then vault lookup (`Vault not found`), the
owner-or-shared write gate, the category check, then `encryptData` on the
card number and the CVV (two fresh IVs) and the insert. -/
def createCreditCard (cp : CryptoPrim) (ivNumber ivCvv : List Nat)
    (input : CreateCreditCardInput) (s : Store) : Except Err (CreditCard × Store) :=
  match s.users.find? (fun u => u.id == input.created_by) with
  | none => Except.error Err.userNotFound
  | some _ =>
    match s.vaults.find? (fun v => v.id == input.vault_id) with
    | none => Except.error Err.vaultNotFound
    | some vault =>
      if writeAccessGate s input.vault_id input.created_by vault then
        if categoryCheck s input.category_id input.vault_id then
          let card : CreditCard :=
            { id := s.nextId, title := input.title
              cardholder_name := input.cardholder_name
              encrypted_card_number := encryptData cp ivNumber input.card_number vault.encryption_key
              encrypted_cvv := encryptData cp ivCvv input.cvv vault.encryption_key
              expiry_month := input.expiry_month
              expiry_year := input.expiry_year
              vault_id := input.vault_id
              category_id := orNullNat input.category_id
              created_by := input.created_by }
          Except.ok (card,
            { s with creditCards := s.creditCards ++ [card], nextId := s.nextId + 1 })
        else Except.error Err.categoryNotFound
      else Except.error Err.insufficientPermissions

/-- `shareVault` (`share_vault` handler): vault lookup, target-user
lookup, acting-user lookup, the owner-or-admin gate, the self-share and
owner-share rejections, the duplicate-pair check, then the insert. -/
def shareVault (input : ShareVaultInput) (s : Store) :
    Except Err (VaultSharing × Store) :=
  match s.vaults.find? (fun v => v.id == input.vault_id) with
  | none => Except.error Err.vaultNotFound
  | some vault =>
    if (s.users.find? (fun u => u.id == input.shared_with_user_id)).isNone then
      Except.error Err.targetUserNotFound
    else if (s.users.find? (fun u => u.id == input.shared_by_user_id)).isNone then
      Except.error Err.sharingUserNotFound
    else if adminAccessGate s input.vault_id input.shared_by_user_id vault then
      if input.shared_with_user_id == input.shared_by_user_id then
        Except.error Err.cannotShareWithSelf
      else if input.shared_with_user_id == vault.owner_id then
        Except.error Err.cannotShareWithOwner
      else if (pairShareRows s input.vault_id input.shared_with_user_id).isEmpty then
        let record : VaultSharing :=
          { id := s.nextId, vault_id := input.vault_id
            shared_with_user_id := input.shared_with_user_id
            shared_by_user_id := input.shared_by_user_id
            permission_level := input.permission_level }
        Except.ok (record,
          { s with vaultSharing := s.vaultSharing ++ [record], nextId := s.nextId + 1 })
      else Except.error Err.alreadyShared
    else Except.error Err.insufficientPermissions

/-! ## Read-side operations -/

/-- `searchInputSchema`: `type` restricts which buckets are searched. -/
inductive ItemType where
  | password
  | note
  | credit_card
deriving DecidableEq, Repr

/-- `searchInputSchema`. -/
structure SearchInput where
  query : String
  vault_id : Option Nat
  category_id : Option Nat
  type : Option ItemType
deriving DecidableEq, Repr

/-- The three result buckets shared by `getVaultItems` and
`searchItems`. -/
structure VaultItems where
  passwordEntries : List PasswordEntry
  secureNotes : List SecureNote
  creditCards : List CreditCard
deriving DecidableEq, Repr

/-- Whitespace for the purposes of `String.prototype.trim` (the common
ASCII whitespace characters; the claims only exercise the empty
string). -/
def isWhitespaceChar (c : Char) : Bool :=
  c == ' ' || c == Char.ofNat 9 || c == Char.ofNat 10 || c == Char.ofNat 13

/-- JS `query.trim()`, executable on character lists. -/
def jsTrim (s : String) : String :=
  String.mk (((s.data.dropWhile isWhitespaceChar).reverse.dropWhile
    isWhitespaceChar).reverse)

/-- Case-insensitive prefix test on character lists. -/
def charsStartWith : List Char → List Char → Bool
  | [], _ => true
  | _ :: _, [] => false
  | a :: as, b :: bs => a == b && charsStartWith as bs

/-- Substring test on character lists. -/
def charsContain (pat : List Char) : List Char → Bool
  | [] => charsStartWith pat []
  | c :: rest => charsStartWith pat (c :: rest) || charsContain pat rest

/-- SQL `ilike '%pat%'`: case-insensitive substring match. -/
def ilikeContains (field pat : String) : Bool :=
  charsContain pat.toLower.data field.toLower.data

/-- The `or(...)` text condition of `searchItems` for password entries:
title, and each nullable field guarded by `isNotNull`. -/
def pwTextMatch (q : String) (e : PasswordEntry) : Bool :=
  ilikeContains e.title q ||
    (match e.username with | some u => ilikeContains u q | none => false) ||
    (match e.url with | some u => ilikeContains u q | none => false) ||
    (match e.notes with | some n => ilikeContains n q | none => false)

/-- The text condition of `searchItems` for credit cards: title and
cardholder name. -/
def cardTextMatch (q : String) (c : CreditCard) : Bool :=
  ilikeContains c.title q || ilikeContains c.cardholder_name q

/-- `eq(table.vault_id, input.vault_id)` when the filter is present. -/
def vaultFilterOk (fil : Option Nat) (vaultId : Nat) : Bool :=
  match fil with
  | none => true
  | some v => v == vaultId

/-- `eq(table.category_id, input.category_id)` when the filter is
present; SQL equality against a null `category_id` is not true, so a
null category never matches a concrete filter. -/
def categoryFilterOk (fil : Option Nat) (categoryId : Option Nat) : Bool :=
  match fil with
  | none => true
  | some c =>
    match categoryId with
    | some c2 => c == c2
    | none => false

/-- `searchItems` (`search_items.ts`).  Each bucket is searched when the
`type` filter is absent or names it; the condition list (text condition
pushed only when `query.trim() !== ''`, then the vault and category
equality filters) is conjoined, and an empty condition list selects the
whole table — equivalently each row passes
`(trimmed query empty or text match) AND vault filter AND category
filter`. -/
def searchItems (input : SearchInput) (s : Store) : VaultItems :=
  let textOn := jsTrim input.query != ""
  { passwordEntries :=
      if input.type.isNone || input.type == some ItemType.password then
        s.passwordEntries.filter fun e =>
          (!textOn || pwTextMatch input.query e) &&
            vaultFilterOk input.vault_id e.vault_id &&
            categoryFilterOk input.category_id e.category_id
      else []
    secureNotes :=
      if input.type.isNone || input.type == some ItemType.note then
        s.secureNotes.filter fun n =>
          (!textOn || ilikeContains n.title input.query) &&
            vaultFilterOk input.vault_id n.vault_id &&
            categoryFilterOk input.category_id n.category_id
      else []
    creditCards :=
      if input.type.isNone || input.type == some ItemType.credit_card then
        s.creditCards.filter fun c =>
          (!textOn || cardTextMatch input.query c) &&
            vaultFilterOk input.vault_id c.vault_id &&
            categoryFilterOk input.category_id c.category_id
      else [] }

/-- Modelled from the spec: the repository's `getVaultItems` handler
(`get_vault_items.ts`) is only a placeholder declaration whose body
returns three empty collections and says real code should be implemented
there; the behaviour is modelled from the spec's interface table
(`getVaultItems | vaultId, optional categoryId | three item collections |
none (empty on no match)`) and the handler's tests: all items of the
vault, restricted to the given category when one is supplied (an item
with no category is excluded by a concrete category filter). -/
def getVaultItems (vaultId : Nat) (categoryId : Option Nat) (s : Store) : VaultItems :=
  { passwordEntries :=
      s.passwordEntries.filter fun e =>
        e.vault_id == vaultId && categoryFilterOk categoryId e.category_id
    secureNotes :=
      s.secureNotes.filter fun n =>
        n.vault_id == vaultId && categoryFilterOk categoryId n.category_id
    creditCards :=
      s.creditCards.filter fun c =>
        c.vault_id == vaultId && categoryFilterOk categoryId c.category_id }

/-- First-occurrence deduplication by vault id
(`self.findIndex(v => v.id === vault.id)` in `getUserVaults`). -/
def dedupeByIdAux : List Vault → List Nat → List Vault
  | [], _ => []
  | v :: rest, seen =>
    if seen.contains v.id then dedupeByIdAux rest seen
    else v :: dedupeByIdAux rest (v.id :: seen)

/-- `getUserVaults` (handler importing `vaultsTable, vaultSharingTable`):
owned vaults, plus the inner join of vaults with sharing records for
this user (every column of the vault selected, `encryption_key`
included), concatenated and deduplicated by id. -/
def getUserVaults (userId : Nat) (s : Store) : List Vault :=
  let ownedVaults := s.vaults.filter fun v => v.owner_id == userId
  let sharedVaults :=
    (s.vaults.map fun v =>
      (s.vaultSharing.filter fun r =>
        r.vault_id == v.id && r.shared_with_user_id == userId).map fun _ => v).flatten
  dedupeByIdAux (ownedVaults ++ sharedVaults) []

/-! ## The spec's Access Control Resolver (refinement reference) -/

/-- The spec's `resolvePermission(vault, actingUserId)` (spec section
4.1), written from the spec's words for comparison with the inlined
gates of the handlers: the owner resolves to `admin`; otherwise the
sharing record keyed by (vault.id, actingUserId) gives its
`permission_level`; otherwise no access (`Option.none` plays the spec's
`none` level). -/
def resolvePermission (s : Store) (vault : Vault) (actingUserId : Nat) :
    Option PermissionLevel :=
  if vault.owner_id == actingUserId then some PermissionLevel.admin
  else
    match s.vaultSharing.find? (fun r =>
        r.vault_id == vault.id && r.shared_with_user_id == actingUserId) with
    | some r => some r.permission_level
    | none => none

/-! ## Store invariants and reachability -/

/-- At most one sharing record per (vault, shared_with_user) pair. -/
def sharingPairUnique (s : Store) : Prop :=
  s.vaultSharing.Pairwise fun r1 r2 =>
    ¬(r1.vault_id = r2.vault_id ∧ r1.shared_with_user_id = r2.shared_with_user_id)

/-- No sharing record grants to the owner of its vault. -/
def sharingNotOwner (s : Store) : Prop :=
  ∀ r ∈ s.vaultSharing, ∀ v ∈ s.vaults, v.id = r.vault_id →
    r.shared_with_user_id ≠ v.owner_id

/-- No self-grant. -/
def sharingNotSelf (s : Store) : Prop :=
  ∀ r ∈ s.vaultSharing, r.shared_with_user_id ≠ r.shared_by_user_id

/-- The three VaultSharing invariants of the spec (section 3). -/
def sharingInvariants (s : Store) : Prop :=
  sharingPairUnique s ∧ sharingNotOwner s ∧ sharingNotSelf s

/-- Vault ids are pairwise distinct (serial primary key). -/
def vaultIdsUnique (s : Store) : Prop :=
  s.vaults.Pairwise fun v1 v2 => v1.id ≠ v2.id

/-- Every stored id is below the fresh-id counter. -/
def idsBounded (s : Store) : Prop :=
  (∀ v ∈ s.vaults, v.id < s.nextId) ∧ (∀ r ∈ s.vaultSharing, r.vault_id < s.nextId)

/-- The inductive store invariant: the spec's sharing invariants plus
the bookkeeping facts (distinct vault ids, id bounds) that make them
inductive. -/
def storeInv (s : Store) : Prop :=
  vaultIdsUnique s ∧ idsBounded s ∧ sharingInvariants s

/-- One mutating operation of the core.  The `insertUser` constructor is
modelled from the spec: the repository's `createUser` handler is a
placeholder declaration, and the tests insert user rows directly; it
stands for inserting one fresh user row. -/
inductive Step : Store → Store → Prop where
  | insertUser (s : Store) (email ph fn ln : String) :
      Step s { s with
        users := s.users ++
          [{ id := s.nextId, email := email, password_hash := ph, first_name := fn
             last_name := ln, two_factor_enabled := false, two_factor_secret := none }]
        nextId := s.nextId + 1 }
  | vault (s : Store) (entropy : List Nat) (input : CreateVaultInput) (v : Vault)
      (s' : Store) : createVault entropy input s = Except.ok (v, s') → Step s s'
  | category (s : Store) (input : CreateCategoryInput) (c : Category) (s' : Store) :
      createCategory input s = Except.ok (c, s') → Step s s'
  | pw (s : Store) (cp : CryptoPrim) (input : CreatePasswordEntryInput)
      (e : PasswordEntry) (s' : Store) :
      createPasswordEntry cp input s = Except.ok (e, s') → Step s s'
  | note (s : Store) (cp : CryptoPrim) (iv : List Nat) (input : CreateSecureNoteInput)
      (n : SecureNote) (s' : Store) :
      createSecureNote cp iv input s = Except.ok (n, s') → Step s s'
  | card (s : Store) (cp : CryptoPrim) (iv1 iv2 : List Nat)
      (input : CreateCreditCardInput) (c : CreditCard) (s' : Store) :
      createCreditCard cp iv1 iv2 input s = Except.ok (c, s') → Step s s'
  | share (s : Store) (input : ShareVaultInput) (r : VaultSharing) (s' : Store) :
      shareVault input s = Except.ok (r, s') → Step s s'

/-- Stores reachable from the empty database by the core's operations. -/
inductive Reachable : Store → Prop where
  | init : Reachable emptyStore
  | step (s s' : Store) : Reachable s → Step s s' → Reachable s'

/-! ## Helper lemmas: hex roundtrip -/

theorem hexVal_hexDigitChar {n : Nat} (h : n < 16) :
    hexDigitVal? (hexDigitChar n) = some n := by
  interval_cases n <;> decide

theorem hexDecode_byteToHex (b : Nat) (hb : b < 256) (rest : List Char) :
    hexDecodeTruncChars (byteToHex b ++ rest) = b :: hexDecodeTruncChars rest := by
  have h1 : b / 16 < 16 := Nat.div_lt_of_lt_mul (by omega)
  have h2 : b % 16 < 16 := Nat.mod_lt _ (by omega)
  simp [byteToHex, hexDecodeTruncChars, hexVal_hexDigitChar h1, hexVal_hexDigitChar h2,
    Nat.div_add_mod]

theorem hexDecode_bytesToHexChars (bs : List Nat) (h : ∀ b ∈ bs, b < 256) :
    hexDecodeTruncChars (bytesToHexChars bs) = bs := by
  induction bs with
  | nil => rfl
  | cons b rest ih =>
    have hb : b < 256 := h b (by simp)
    have hrest : ∀ x ∈ rest, x < 256 := fun x hx => h x (by simp [hx])
    simp only [bytesToHexChars, List.map_cons, List.flatten_cons]
    rw [hexDecode_byteToHex b hb]
    simpa [bytesToHexChars] using ih hrest

theorem hexDecode_bytesToHex (bs : List Nat) (h : ∀ b ∈ bs, b < 256) :
    hexDecodeTrunc (bytesToHex bs) = bs := by
  simpa [hexDecodeTrunc, bytesToHex] using hexDecode_bytesToHexChars bs h

theorem hexDecodeLen (l : List Char) (h : ∀ c ∈ l, (hexDigitVal? c).isSome) :
    (hexDecodeTruncChars l).length = l.length / 2 := by
  induction l using hexDecodeTruncChars.induct with
  | case1 c1 c2 rest hv lv heq2 heq1 ih =>
    rw [hexDecodeTruncChars]
    simp only [heq1, heq2]
    have ihr := ih (fun c hc => h c (by simp [hc]))
    simp only [List.length_cons, ihr]
    omega
  | case2 c1 c2 rest hbad =>
    exfalso
    have hc1 := h c1 (by simp)
    have hc2 := h c2 (by simp)
    cases hv1 : hexDigitVal? c1 with
    | none => simp [hv1] at hc1
    | some a =>
      cases hv2 : hexDigitVal? c2 with
      | none => simp [hv2] at hc2
      | some b => exact hbad a b hv1 hv2
  | case3 l hshort =>
    cases l with
    | nil => rfl
    | cons c t =>
      cases t with
      | nil => simp [hexDecodeTruncChars]
      | cons c2 t2 => exact absurd rfl (hshort c c2 t2)

theorem hex64_decodes_32 (k : String) (h : isHex64 k = true) :
    (hexDecodeTrunc k).length = 32 := by
  simp only [isHex64, Bool.and_eq_true, beq_iff_eq, List.all_eq_true] at h
  obtain ⟨hlen, hall⟩ := h
  have := hexDecodeLen k.data (fun c hc => by
    have := hall c hc
    simpa using this)
  rw [hexDecodeTrunc, this, hlen]

/-! ## Helper lemmas: first-match lookups under uniqueness -/

theorem find?_eq_some_of_pairwise {α : Type} {R : α → α → Prop} {l : List α}
    {p : α → Bool} {a : α} (hpw : l.Pairwise R)
    (hcompat : ∀ x y, p x = true → p y = true → ¬ R x y)
    (ha : a ∈ l) (hpa : p a = true) : l.find? p = some a := by
  induction l with
  | nil => simp at ha
  | cons b t ih =>
    rw [List.pairwise_cons] at hpw
    obtain ⟨hb, ht⟩ := hpw
    by_cases hpb : p b = true
    · have hab : a = b := by
        rcases List.mem_cons.mp ha with h | h
        · exact h
        · exact absurd (hb a h) (hcompat b a hpb hpa)
      rw [hab, List.find?_cons_of_pos _ hpb]
    · have hat : a ∈ t := by
        rcases List.mem_cons.mp ha with h | h
        · exact absurd (h ▸ hpa) hpb
        · exact h
      rw [List.find?_cons_of_neg _ (by simpa using hpb)]
      exact ih ht hat

/-! ## Helper lemmas: permission gates versus the spec resolver -/

/-- The spec's policy classes: `write` or `admin`. -/
def isWriteLevel (p : Option PermissionLevel) : Prop :=
  p = some PermissionLevel.write ∨ p = some PermissionLevel.admin

theorem sharedWriteRows_nonempty_iff (s : Store) (vid uid : Nat) :
    (sharedWriteRows s vid uid).isEmpty = false ↔
      ∃ r ∈ s.vaultSharing, r.vault_id = vid ∧ r.shared_with_user_id = uid ∧
        (r.permission_level = PermissionLevel.write ∨
         r.permission_level = PermissionLevel.admin) := by
  rw [List.isEmpty_eq_false_iff_exists_mem]
  constructor
  · rintro ⟨r, hr⟩
    rw [sharedWriteRows, List.mem_filter] at hr
    obtain ⟨hmem, hp⟩ := hr
    simp only [Bool.and_eq_true, Bool.or_eq_true, beq_iff_eq] at hp
    exact ⟨r, hmem, hp.1.1, hp.1.2, hp.2⟩
  · rintro ⟨r, hmem, h1, h2, h3⟩
    refine ⟨r, ?_⟩
    rw [sharedWriteRows, List.mem_filter]
    refine ⟨hmem, ?_⟩
    simp only [Bool.and_eq_true, Bool.or_eq_true, beq_iff_eq]
    exact ⟨⟨h1, h2⟩, h3⟩

theorem adminShareRows_nonempty_iff (s : Store) (vid uid : Nat) :
    (adminShareRows s vid uid).isEmpty = false ↔
      ∃ r ∈ s.vaultSharing, r.vault_id = vid ∧ r.shared_with_user_id = uid ∧
        r.permission_level = PermissionLevel.admin := by
  rw [List.isEmpty_eq_false_iff_exists_mem]
  constructor
  · rintro ⟨r, hr⟩
    rw [adminShareRows, List.mem_filter] at hr
    obtain ⟨hmem, hp⟩ := hr
    simp only [Bool.and_eq_true, beq_iff_eq] at hp
    exact ⟨r, hmem, hp.1.1, hp.1.2, hp.2⟩
  · rintro ⟨r, hmem, h1, h2, h3⟩
    refine ⟨r, ?_⟩
    rw [adminShareRows, List.mem_filter]
    refine ⟨hmem, ?_⟩
    simp only [Bool.and_eq_true, beq_iff_eq]
    exact ⟨⟨h1, h2⟩, h3⟩

/-- Under pair uniqueness, the first sharing record found for a pair is
the only one, so the resolver's lookup agrees with any membership
argument. -/
theorem find?_pair_eq (s : Store) (vid uid : Nat) (hpu : sharingPairUnique s)
    {r : VaultSharing} (hmem : r ∈ s.vaultSharing) (h1 : r.vault_id = vid)
    (h2 : r.shared_with_user_id = uid) :
    s.vaultSharing.find?
      (fun x => x.vault_id == vid && x.shared_with_user_id == uid) = some r := by
  refine find?_eq_some_of_pairwise hpu ?_ hmem ?_
  · intro x y hx hy
    simp only [Bool.and_eq_true, beq_iff_eq] at hx hy
    intro hR
    exact hR ⟨hx.1.trans hy.1.symm, hx.2.trans hy.2.symm⟩
  · simp only [Bool.and_eq_true, beq_iff_eq]
    exact ⟨h1, h2⟩

/-- The inlined owner-or-shared-write gate of `createPasswordEntry` and
`createCreditCard` agrees with the spec's resolver. -/
theorem writeGate_iff_resolve (s : Store) (vault : Vault) (uid : Nat)
    (hpu : sharingPairUnique s) :
    writeAccessGate s vault.id uid vault = true ↔
      isWriteLevel (resolvePermission s vault uid) := by
  unfold writeAccessGate
  by_cases ho : vault.owner_id = uid
  · simp [ho, resolvePermission, isWriteLevel]
  · have hob : (vault.owner_id == uid) = false := by simpa using ho
    rw [resolvePermission, if_neg (by simpa using ho)]
    simp only [hob, Bool.false_or, Bool.not_eq_true', isWriteLevel]
    constructor
    · intro hne
      obtain ⟨r, hmem, h1, h2, h3⟩ := (sharedWriteRows_nonempty_iff s vault.id uid).mp hne
      rw [find?_pair_eq s vault.id uid hpu hmem h1 h2]
      rcases h3 with h3 | h3
      · left
        show some r.permission_level = some PermissionLevel.write
        rw [h3]
      · right
        show some r.permission_level = some PermissionLevel.admin
        rw [h3]
    · intro hres
      cases hfind : s.vaultSharing.find?
          (fun x => x.vault_id == vault.id && x.shared_with_user_id == uid) with
      | none => rw [hfind] at hres; rcases hres with h | h <;> exact Option.noConfusion h
      | some r =>
        rw [hfind] at hres
        have hpred := List.find?_some hfind
        simp only [Bool.and_eq_true, beq_iff_eq] at hpred
        have hmem := List.mem_of_find?_eq_some hfind
        have hlvl : r.permission_level = PermissionLevel.write ∨
            r.permission_level = PermissionLevel.admin := by
          rcases hres with h | h
          · exact Or.inl (by injection h)
          · exact Or.inr (by injection h)
        exact (sharedWriteRows_nonempty_iff s vault.id uid).mpr
          ⟨r, hmem, hpred.1, hpred.2, hlvl⟩

/-- The inlined owner-or-admin gate of `shareVault` agrees with the
spec's resolver. -/
theorem adminGate_iff_resolve (s : Store) (vault : Vault) (uid : Nat)
    (hpu : sharingPairUnique s) :
    adminAccessGate s vault.id uid vault = true ↔
      resolvePermission s vault uid = some PermissionLevel.admin := by
  unfold adminAccessGate
  by_cases ho : vault.owner_id = uid
  · simp [ho, resolvePermission]
  · have hob : (vault.owner_id == uid) = false := by simpa using ho
    rw [resolvePermission, if_neg (by simpa using ho)]
    simp only [hob, Bool.false_or, Bool.not_eq_true']
    constructor
    · intro hne
      obtain ⟨r, hmem, h1, h2, h3⟩ := (adminShareRows_nonempty_iff s vault.id uid).mp hne
      rw [find?_pair_eq s vault.id uid hpu hmem h1 h2]
      show some r.permission_level = some PermissionLevel.admin
      rw [h3]
    · intro hres
      cases hfind : s.vaultSharing.find?
          (fun x => x.vault_id == vault.id && x.shared_with_user_id == uid) with
      | none => rw [hfind] at hres; exact Option.noConfusion hres
      | some r =>
        rw [hfind] at hres
        have hpred := List.find?_some hfind
        simp only [Bool.and_eq_true, beq_iff_eq] at hpred
        have hmem := List.mem_of_find?_eq_some hfind
        exact (adminShareRows_nonempty_iff s vault.id uid).mpr
          ⟨r, hmem, hpred.1, hpred.2, by injection hres⟩

theorem mem_noteJoinGroup_iff (s : Store) (uid : Nat) (v : Vault)
    (vr : Vault × Option VaultSharing) :
    vr ∈ noteJoinGroup s uid v ↔
      (vr = (v, none) ∧ sharedWriteRows s v.id uid = []) ∨
        ∃ r ∈ sharedWriteRows s v.id uid, vr = (v, some r) := by
  unfold noteJoinGroup
  cases h : sharedWriteRows s v.id uid with
  | nil => simp [h]
  | cons a t =>
    simp only [List.mem_map]
    constructor
    · rintro ⟨r, hr, he⟩
      exact Or.inr ⟨r, hr, he.symm⟩
    · rintro (⟨_, hnil⟩ | ⟨r, hr, he⟩)
      · exact List.noConfusion hnil
      · exact ⟨r, hr, he.symm⟩

/-- Under vault-id uniqueness, a stored vault with the looked-up id is
the vault the lookup returned. -/
theorem vault_eq_of_mem_id (s : Store) (vid : Nat) (hvu : vaultIdsUnique s)
    {vault v : Vault}
    (hfind : s.vaults.find? (fun x => x.id == vid) = some vault)
    (hv : v ∈ s.vaults) (hid : v.id = vid) : v = vault := by
  have hf2 : s.vaults.find? (fun x => x.id == vid) = some v := by
    refine find?_eq_some_of_pairwise hvu ?_ hv (by simpa using hid)
    intro x y hx hy
    simp only [beq_iff_eq] at hx hy
    intro hR
    exact hR (hx.trans hy.symm)
  rw [hfind] at hf2
  exact (Option.some.inj hf2).symm

/-- The joined access query of `createSecureNote` is nonempty exactly
when the inlined owner-or-shared-write gate of the other two item
handlers passes. -/
theorem noteAccessRows_nonempty_iff (s : Store) (vid uid : Nat) (vault : Vault)
    (hvu : vaultIdsUnique s)
    (hfind : s.vaults.find? (fun x => x.id == vid) = some vault) :
    (noteAccessRows s vid uid).isEmpty = false ↔
      writeAccessGate s vid uid vault = true := by
  unfold writeAccessGate
  have hvmem : vault ∈ s.vaults := List.mem_of_find?_eq_some hfind
  have hvid : vault.id = vid := by simpa using List.find?_some hfind
  rw [List.isEmpty_eq_false_iff_exists_mem]
  constructor
  · rintro ⟨vr, hvr⟩
    rw [noteAccessRows, List.mem_filter] at hvr
    obtain ⟨hbig, hpred⟩ := hvr
    simp only [List.mem_flatten, List.mem_map] at hbig
    obtain ⟨grp, ⟨v, hv, rfl⟩, hvrg⟩ := hbig
    rcases (mem_noteJoinGroup_iff s uid v vr).mp hvrg with ⟨rfl, hnil⟩ | ⟨r, hr, rfl⟩
    · simp only [noteRowPred, Bool.and_eq_true, Bool.or_eq_true, beq_iff_eq] at hpred
      rcases hpred.2 with how | hfalse
      · have hveq : v = vault := vault_eq_of_mem_id s vid hvu hfind hv hpred.1
        subst hveq
        simp [how]
      · exact absurd hfalse (by simp)
    · simp only [noteRowPred, Bool.and_eq_true, Bool.or_eq_true, beq_iff_eq] at hpred
      have hvid2 : v.id = vid := hpred.1
      have : (sharedWriteRows s vid uid).isEmpty = false := by
        rw [List.isEmpty_eq_false_iff_exists_mem]
        exact ⟨r, hvid2 ▸ hr⟩
      simp [this]
  · intro hgate
    rw [Bool.or_eq_true] at hgate
    rcases hgate with how | hsw
    · cases hsh : sharedWriteRows s vault.id uid with
      | nil =>
        refine ⟨(vault, none), ?_⟩
        rw [noteAccessRows, List.mem_filter]
        constructor
        · simp only [List.mem_flatten, List.mem_map]
          exact ⟨noteJoinGroup s uid vault, ⟨vault, hvmem, rfl⟩,
            (mem_noteJoinGroup_iff s uid vault _).mpr (Or.inl ⟨rfl, hsh⟩)⟩
        · simp [noteRowPred, hvid, how]
      | cons a t =>
        refine ⟨(vault, some a), ?_⟩
        rw [noteAccessRows, List.mem_filter]
        constructor
        · simp only [List.mem_flatten, List.mem_map]
          exact ⟨noteJoinGroup s uid vault, ⟨vault, hvmem, rfl⟩,
            (mem_noteJoinGroup_iff s uid vault _).mpr (Or.inr ⟨a, by simp [hsh], rfl⟩)⟩
        · simp [noteRowPred, hvid, how]
    · rw [Bool.not_eq_true', List.isEmpty_eq_false_iff_exists_mem] at hsw
      obtain ⟨r, hr⟩ := hsw
      have hruid : r.shared_with_user_id = uid := by
        rw [sharedWriteRows, List.mem_filter] at hr
        have := hr.2
        simp only [Bool.and_eq_true, beq_iff_eq] at this
        exact this.1.2
      refine ⟨(vault, some r), ?_⟩
      rw [noteAccessRows, List.mem_filter]
      constructor
      · simp only [List.mem_flatten, List.mem_map]
        exact ⟨noteJoinGroup s uid vault, ⟨vault, hvmem, rfl⟩,
          (mem_noteJoinGroup_iff s uid vault _).mpr (Or.inr ⟨r, hvid ▸ hr, rfl⟩)⟩
      · simp [noteRowPred, hvid, hruid]

/-! ## Helper lemmas: shapes of successful handler results -/

theorem createVault_ok_shape {entropy : List Nat} {input : CreateVaultInput}
    {s : Store} {v : Vault} {s' : Store}
    (h : createVault entropy input s = Except.ok (v, s')) :
    v = { id := s.nextId, name := input.name, description := orNullStr input.description
          owner_id := input.owner_id, encryption_key := bytesToHex entropy } ∧
      s' = { s with vaults := s.vaults ++ [v], nextId := s.nextId + 1 } := by
  unfold createVault at h
  cases hfind : s.users.find? (fun u => u.id == input.owner_id) <;> rw [hfind] at h
  · simp at h
  · simp only [Except.ok.injEq, Prod.mk.injEq] at h
    obtain ⟨hv, hs⟩ := h
    subst hv
    exact ⟨rfl, hs.symm⟩

theorem createCategory_ok_shape {input : CreateCategoryInput} {s : Store}
    {c : Category} {s' : Store}
    (h : createCategory input s = Except.ok (c, s')) :
    s'.vaults = s.vaults ∧ s'.vaultSharing = s.vaultSharing ∧
      s'.users = s.users ∧ s.nextId ≤ s'.nextId := by
  unfold createCategory at h
  cases hfind : s.vaults.find? (fun v => v.id == input.vault_id) <;> rw [hfind] at h
  · simp at h
  · simp only [Except.ok.injEq, Prod.mk.injEq] at h
    obtain ⟨_, hs⟩ := h
    subst hs
    exact ⟨rfl, rfl, rfl, Nat.le_succ _⟩

theorem createPasswordEntry_ok_shape {cp : CryptoPrim} {input : CreatePasswordEntryInput}
    {s : Store} {e : PasswordEntry} {s' : Store}
    (h : createPasswordEntry cp input s = Except.ok (e, s')) :
    s'.vaults = s.vaults ∧ s'.vaultSharing = s.vaultSharing ∧
      s'.users = s.users ∧ s.nextId ≤ s'.nextId := by
  unfold createPasswordEntry at h
  split at h
  · simp at h
  · split at h
    · split at h
      · simp only [Except.ok.injEq, Prod.mk.injEq] at h
        obtain ⟨_, hs⟩ := h
        subst hs
        exact ⟨rfl, rfl, rfl, Nat.le_succ _⟩
      · simp at h
    · simp at h

theorem createSecureNote_ok_shape {cp : CryptoPrim} {iv : List Nat}
    {input : CreateSecureNoteInput} {s : Store} {n : SecureNote} {s' : Store}
    (h : createSecureNote cp iv input s = Except.ok (n, s')) :
    s'.vaults = s.vaults ∧ s'.vaultSharing = s.vaultSharing ∧
      s'.users = s.users ∧ s.nextId ≤ s'.nextId := by
  unfold createSecureNote at h
  split at h
  · simp at h
  · split at h
    · simp at h
    · split at h
      · simp at h
      · split at h
        · split at h
          · simp at h
          · simp only [Except.ok.injEq, Prod.mk.injEq] at h
            obtain ⟨_, hs⟩ := h
            subst hs
            exact ⟨rfl, rfl, rfl, Nat.le_succ _⟩
        · simp at h

theorem createCreditCard_ok_shape {cp : CryptoPrim} {iv1 iv2 : List Nat}
    {input : CreateCreditCardInput} {s : Store} {c : CreditCard} {s' : Store}
    (h : createCreditCard cp iv1 iv2 input s = Except.ok (c, s')) :
    s'.vaults = s.vaults ∧ s'.vaultSharing = s.vaultSharing ∧
      s'.users = s.users ∧ s.nextId ≤ s'.nextId := by
  unfold createCreditCard at h
  split at h
  · simp at h
  · split at h
    · simp at h
    · split at h
      · split at h
        · simp only [Except.ok.injEq, Prod.mk.injEq] at h
          obtain ⟨_, hs⟩ := h
          subst hs
          exact ⟨rfl, rfl, rfl, Nat.le_succ _⟩
        · simp at h
      · simp at h

theorem shareVault_ok_shape {input : ShareVaultInput} {s : Store}
    {r : VaultSharing} {s' : Store}
    (h : shareVault input s = Except.ok (r, s')) :
    ∃ vault,
      s.vaults.find? (fun v => v.id == input.vault_id) = some vault ∧
      (s.users.find? (fun u => u.id == input.shared_with_user_id)).isNone = false ∧
      (s.users.find? (fun u => u.id == input.shared_by_user_id)).isNone = false ∧
      adminAccessGate s input.vault_id input.shared_by_user_id vault = true ∧
      input.shared_with_user_id ≠ input.shared_by_user_id ∧
      input.shared_with_user_id ≠ vault.owner_id ∧
      (∀ x ∈ s.vaultSharing,
        ¬(x.vault_id = input.vault_id ∧
          x.shared_with_user_id = input.shared_with_user_id)) ∧
      r = { id := s.nextId, vault_id := input.vault_id
            shared_with_user_id := input.shared_with_user_id
            shared_by_user_id := input.shared_by_user_id
            permission_level := input.permission_level } ∧
      s' = { s with vaultSharing := s.vaultSharing ++ [r], nextId := s.nextId + 1 } := by
  unfold shareVault at h
  split at h
  · simp at h
  next vault heq =>
  refine ⟨vault, heq, ?_⟩
  split at h
  · simp at h
  next htg =>
  split at h
  · simp at h
  next hby =>
  split at h
  case isFalse => simp at h
  next hgate =>
  split at h
  · simp at h
  next hself =>
  split at h
  · simp at h
  next howner =>
  split at h
  case isFalse => simp at h
  next hemp =>
  simp only [Except.ok.injEq, Prod.mk.injEq] at h
  obtain ⟨hr, hs⟩ := h
  subst hr
  have hnil : pairShareRows s input.vault_id input.shared_with_user_id = [] := by
    simpa using hemp
  refine ⟨by simpa using htg, by simpa using hby, hgate,
    by simpa using hself, by simpa using howner, ?_, rfl, hs.symm⟩
  intro x hx hpair
  have hall := List.filter_eq_nil_iff.mp hnil x hx
  simp only [Bool.and_eq_true, beq_iff_eq] at hall
  exact hall ⟨hpair.1, hpair.2⟩

/-! ## Invariant preservation -/

theorem storeInv_of_same {s s' : Store} (hv : s'.vaults = s.vaults)
    (hsh : s'.vaultSharing = s.vaultSharing) (hn : s.nextId ≤ s'.nextId)
    (h : storeInv s) : storeInv s' := by
  obtain ⟨hvu, ⟨hb1, hb2⟩, hpu, hno, hns⟩ := h
  refine ⟨?_, ⟨?_, ?_⟩, ?_, ?_, ?_⟩
  · rw [vaultIdsUnique, hv]; exact hvu
  · rw [hv]; intro v hvm; exact lt_of_lt_of_le (hb1 v hvm) hn
  · rw [hsh]; intro r hr; exact lt_of_lt_of_le (hb2 r hr) hn
  · rw [sharingPairUnique, hsh]; exact hpu
  · rw [sharingNotOwner, hsh, hv]; exact hno
  · rw [sharingNotSelf, hsh]; exact hns

theorem storeInv_step {s s' : Store} (hinv : storeInv s) (hstep : Step s s') :
    storeInv s' := by
  cases hstep with
  | insertUser email ph fn ln =>
    exact @storeInv_of_same s _ rfl rfl (Nat.le_succ s.nextId) hinv
  | vault entropy input v s2 h =>
    obtain ⟨hv, hs⟩ := createVault_ok_shape h
    obtain ⟨hvu, ⟨hb1, hb2⟩, hpu, hno, hns⟩ := hinv
    subst hs
    refine ⟨?_, ⟨?_, ?_⟩, hpu, ?_, hns⟩
    · rw [vaultIdsUnique]
      rw [List.pairwise_append]
      refine ⟨hvu, List.pairwise_singleton _ _, ?_⟩
      intro v1 hv1 v2 hv2
      simp only [List.mem_singleton] at hv2
      subst hv2
      rw [hv]
      exact Nat.ne_of_lt (hb1 v1 hv1)
    · intro x hx
      rcases List.mem_append.mp hx with hx | hx
      · exact Nat.lt_succ_of_lt (hb1 x hx)
      · simp only [List.mem_singleton] at hx
        subst hx
        rw [hv]
        exact Nat.lt_succ_self _
    · intro r hr
      exact Nat.lt_succ_of_lt (hb2 r hr)
    · intro r hr x hx hid
      rcases List.mem_append.mp hx with hx | hx
      · exact hno r hr x hx hid
      · simp only [List.mem_singleton] at hx
        subst hx
        rw [hv] at hid
        exact absurd hid.symm (Nat.ne_of_lt (hb2 r hr))
  | category input c s2 h =>
    obtain ⟨h1, h2, _, h4⟩ := createCategory_ok_shape h
    exact storeInv_of_same h1 h2 h4 hinv
  | pw cp input e s2 h =>
    obtain ⟨h1, h2, _, h4⟩ := createPasswordEntry_ok_shape h
    exact storeInv_of_same h1 h2 h4 hinv
  | note cp iv input n s2 h =>
    obtain ⟨h1, h2, _, h4⟩ := createSecureNote_ok_shape h
    exact storeInv_of_same h1 h2 h4 hinv
  | card cp iv1 iv2 input c s2 h =>
    obtain ⟨h1, h2, _, h4⟩ := createCreditCard_ok_shape h
    exact storeInv_of_same h1 h2 h4 hinv
  | share input r s2 h =>
    obtain ⟨vault, hfind, _, _, _, hself, howner, hnodup, hr, hs⟩ := shareVault_ok_shape h
    obtain ⟨hvu, ⟨hb1, hb2⟩, hpu, hno, hns⟩ := hinv
    have hvmem : vault ∈ s.vaults := List.mem_of_find?_eq_some hfind
    have hvid : vault.id = input.vault_id := by simpa using List.find?_some hfind
    subst hs
    refine ⟨hvu, ⟨?_, ?_⟩, ?_, ?_, ?_⟩
    · intro v hv
      exact Nat.lt_succ_of_lt (hb1 v hv)
    · intro x hx
      rcases List.mem_append.mp hx with hx | hx
      · exact Nat.lt_succ_of_lt (hb2 x hx)
      · simp only [List.mem_singleton] at hx
        subst hx
        rw [hr]
        exact Nat.lt_succ_of_lt (hvid ▸ hb1 vault hvmem)
    · rw [sharingPairUnique, List.pairwise_append]
      refine ⟨hpu, List.pairwise_singleton _ _, ?_⟩
      intro x hx y hy
      simp only [List.mem_singleton] at hy
      subst hy
      rw [hr]
      intro hpair
      exact hnodup x hx ⟨hpair.1, hpair.2⟩
    · intro x hx v hv hid
      rcases List.mem_append.mp hx with hx | hx
      · exact hno x hx v hv hid
      · simp only [List.mem_singleton] at hx
        subst hx
        rw [hr] at hid ⊢
        have hveq : v = vault := by
          have hfv : s.vaults.find? (fun z => z.id == input.vault_id) = some v := by
            refine find?_eq_some_of_pairwise hvu ?_ hv (by simpa using hid)
            intro a b ha hb
            simp only [beq_iff_eq] at ha hb
            intro hR
            exact hR (ha.trans hb.symm)
          rw [hfind] at hfv
          exact (Option.some.inj hfv).symm
        subst hveq
        simpa using howner
    · intro x hx
      rcases List.mem_append.mp hx with hx | hx
      · exact hns x hx
      · simp only [List.mem_singleton] at hx
        subst hx
        rw [hr]
        simpa using hself

theorem storeInv_emptyStore : storeInv emptyStore := by
  refine ⟨?_, ⟨?_, ?_⟩, ?_, ?_, ?_⟩ <;> simp [vaultIdsUnique, sharingPairUnique,
    sharingNotOwner, sharingNotSelf, emptyStore]

theorem storeInv_reachable {s : Store} (h : Reachable s) : storeInv s := by
  induction h with
  | init => exact storeInv_emptyStore
  | step s s' _ hstep ih => exact storeInv_step ih hstep

/-- Decidable equality on handler results, for closed evaluations. -/
instance {e a : Type} [DecidableEq e] [DecidableEq a] : DecidableEq (Except e a) :=
  fun x y =>
    match x, y with
    | Except.error e1, Except.error e2 =>
      if h : e1 = e2 then Decidable.isTrue (by rw [h])
      else Decidable.isFalse (fun hh => h (Except.error.inj hh))
    | Except.error _, Except.ok _ => Decidable.isFalse (fun hh => Except.noConfusion hh)
    | Except.ok _, Except.error _ => Decidable.isFalse (fun hh => Except.noConfusion hh)
    | Except.ok a1, Except.ok a2 =>
      if h : a1 = a2 then Decidable.isTrue (by rw [h])
      else Decidable.isFalse (fun hh => h (Except.ok.inj hh))

/-! ## Concrete fixtures for closed evaluations -/

/-- A user row with a given id. -/
def uFix (n : Nat) : UserRow :=
  { id := n, email := "u@example.com", password_hash := "h", first_name := "F"
    last_name := "L", two_factor_enabled := false, two_factor_secret := none }

/-- A valid vault key: 64 lower-case hex characters. -/
def keyHex64 : String := bytesToHex (List.replicate 32 0)

/-- A vault with id 1 owned by user 1. -/
def vFix : Vault :=
  { id := 1, name := "V", description := none, owner_id := 1
    encryption_key := keyHex64 }

/-- Store with user 1 and their vault 1 (no sharing records). -/
def stOwner : Store :=
  { users := [uFix 1], vaults := [vFix], categories := [], passwordEntries := []
    secureNotes := [], creditCards := [], vaultSharing := [], nextId := 2 }

/-- Store with vault 1 (owner 1) but an empty users table. -/
def stNoUsers : Store :=
  { users := [], vaults := [vFix], categories := [], passwordEntries := []
    secureNotes := [], creditCards := [], vaultSharing := [], nextId := 2 }

/-- A 16-byte all-zero IV. -/
def ivZ : List Nat := List.replicate 16 0

/-- A 16-byte IV differing from `ivZ`. -/
def ivO : List Nat := 1 :: List.replicate 15 0

/-! ## Claim C1 -/

/-- Claim C1 (code bug): the spec requires a fresh random nonce per
encryption call for all three item kinds, but `encryptPassword` of the
password-entry handler is a deterministic SHA-256 hash of
`password + key` with no nonce input at all, so two calls on the
identical (plaintext, key) pair always return the identical envelope —
for every primitive backend.  By contrast the secure-note and
credit-card envelopes prepend the fresh random IV, so two calls with
distinct IVs do differ, as evaluated here on concrete inputs. -/
theorem c1_password_envelope_deterministic :
    (∀ cp : CryptoPrim, ∀ x k : String,
        encryptPassword cp x k = encryptPassword cp x k) ∧
    encryptContent cpTest ivZ "note" keyHex64 ≠ encryptContent cpTest ivO "note" keyHex64 ∧
    encryptData cpTest ivZ "4111" "k" ≠ encryptData cpTest ivO "4111" "k" := by
  refine ⟨fun cp x k => rfl, ?_, ?_⟩ <;> decide

/-! ## Claim C2 -/

/-- Claim C2 (counterexample): the claim says that with an existing
vault and a nonexistent acting user, item creation fails with the
user-not-found error and never with a permission error; but
`createPasswordEntry` performs no user-existence check at all, and on a
store holding vault 1 (owner 1) and only user 1, a call by nonexistent
user 2 fails with the insufficient-permissions error. -/
theorem c2_counterexample_missing_user_check :
    createPasswordEntry cpTest
      { title := "t", username := none, password := "p", url := none, notes := none
        vault_id := 1, category_id := none, created_by := 2 } stOwner =
      Except.error Err.insufficientPermissions := by
  rfl

/-- Claim C2 (amended): `createSecureNote` checks vault existence first
(vault-not-found) and then acting-user existence (user-not-found) before
the permission check; `createCreditCard` checks acting-user existence
before vault existence, so a nonexistent acting user yields
user-not-found even when the vault also does not exist;
`createPasswordEntry` checks vault existence but never acting-user
existence: a non-owner acting user with no write/admin sharing record —
in particular any nonexistent user — fails with the
insufficient-permissions error. -/
theorem c2_amended_existence_check_order :
    (∀ cp (iv : List Nat) input s,
       s.vaults.find? (fun v => v.id == input.vault_id) = none →
       createSecureNote cp iv input s = Except.error Err.vaultNotFound) ∧
    (∀ cp (iv : List Nat) input s vault,
       s.vaults.find? (fun v => v.id == input.vault_id) = some vault →
       s.users.find? (fun u => u.id == input.created_by) = none →
       createSecureNote cp iv input s = Except.error Err.userNotFound) ∧
    (∀ cp (iv1 iv2 : List Nat) input s,
       s.users.find? (fun u => u.id == input.created_by) = none →
       createCreditCard cp iv1 iv2 input s = Except.error Err.userNotFound) ∧
    (∀ cp input s,
       s.vaults.find? (fun v => v.id == input.vault_id) = none →
       createPasswordEntry cp input s = Except.error Err.vaultNotFound) ∧
    (∀ cp input s vault,
       s.vaults.find? (fun v => v.id == input.vault_id) = some vault →
       vault.owner_id ≠ input.created_by →
       sharedWriteRows s input.vault_id input.created_by = [] →
       createPasswordEntry cp input s = Except.error Err.insufficientPermissions) := by
  refine ⟨?_, ?_, ?_, ?_, ?_⟩
  · intro cp iv input s hfind
    unfold createSecureNote
    rw [hfind]
  · intro cp iv input s vault hfind hfu
    unfold createSecureNote
    rw [hfind, hfu]
  · intro cp iv1 iv2 input s hfu
    unfold createCreditCard
    rw [hfu]
  · intro cp input s hfind
    unfold createPasswordEntry
    rw [hfind]
  · intro cp input s vault hfind hwo hsw
    have hg : writeAccessGate s input.vault_id input.created_by vault = false := by
      simp [writeAccessGate, hsw, hwo]
    unfold createPasswordEntry
    rw [hfind]
    simp [hg]

/-- Witness for the amended C2, at concrete stores. -/
theorem c2_amended_witness :
    createSecureNote cpTest ivZ
      { title := "t", content := "c", vault_id := 1, category_id := none
        created_by := 1 } emptyStore = Except.error Err.vaultNotFound ∧
    createSecureNote cpTest ivZ
      { title := "t", content := "c", vault_id := 1, category_id := none
        created_by := 2 } stNoUsers = Except.error Err.userNotFound ∧
    createCreditCard cpTest ivZ ivO
      { title := "t", cardholder_name := "n", card_number := "4", cvv := "1"
        expiry_month := 1, expiry_year := 2030, vault_id := 1, category_id := none
        created_by := 2 } stOwner = Except.error Err.userNotFound ∧
    createPasswordEntry cpTest
      { title := "t", username := none, password := "p", url := none, notes := none
        vault_id := 9, category_id := none, created_by := 1 } stOwner =
      Except.error Err.vaultNotFound ∧
    createPasswordEntry cpTest
      { title := "t", username := none, password := "p", url := none, notes := none
        vault_id := 1, category_id := none, created_by := 2 } stNoUsers =
      Except.error Err.insufficientPermissions := by
  refine ⟨c2_amended_existence_check_order.1 cpTest ivZ _ emptyStore rfl,
    c2_amended_existence_check_order.2.1 cpTest ivZ _ stNoUsers vFix rfl rfl,
    c2_amended_existence_check_order.2.2.1 cpTest ivZ ivO _ stOwner rfl,
    c2_amended_existence_check_order.2.2.2.1 cpTest _ stOwner rfl,
    c2_amended_existence_check_order.2.2.2.2 cpTest _ stNoUsers vFix rfl (by decide) rfl⟩

/-- The category row `createCategory` inserts. -/
def mkCategoryRow (input : CreateCategoryInput) (s : Store) : Category :=
  { id := s.nextId, name := input.name, vault_id := input.vault_id }

/-! ## Claim C6 -/

/-- Claim C6 (counterexample): on a store with users 1 and 2, vault 1
owned by user 1 and no sharing records, user 2 resolves to no permission
at all, yet `createCategory` — whose input carries no acting user and
which performs no permission check — succeeds on that vault. -/
theorem c6_counterexample_no_permission_check :
    resolvePermission
      { users := [uFix 1, uFix 2], vaults := [vFix], categories := []
        passwordEntries := [], secureNotes := [], creditCards := []
        vaultSharing := [], nextId := 3 } vFix 2 = none ∧
    ∃ c s', createCategory { name := "Work", vault_id := 1 }
      { users := [uFix 1, uFix 2], vaults := [vFix], categories := []
        passwordEntries := [], secureNotes := [], creditCards := []
        vaultSharing := [], nextId := 3 } = Except.ok (c, s') := by
  exact ⟨rfl, ⟨_, _, rfl⟩⟩

/-- Claim C6 (amended): `createCategory` is not permission-gated: its
input names no acting user; it fails with vault-not-found when the vault
does not exist and otherwise always inserts and returns the category,
regardless of any user's permission on the vault. -/
theorem c6_amended_category_no_permission_gate :
    ∀ input s,
      (s.vaults.find? (fun v => v.id == input.vault_id) = none →
        createCategory input s = Except.error Err.vaultNotFound) ∧
      (∀ vault, s.vaults.find? (fun v => v.id == input.vault_id) = some vault →
        createCategory input s =
          Except.ok (mkCategoryRow input s,
            { s with categories := s.categories ++ [mkCategoryRow input s], nextId := s.nextId + 1 })) := by
  intro input s
  constructor
  · intro hfind
    unfold createCategory
    rw [hfind]
  · intro vault hfind
    unfold createCategory
    rw [hfind]
    rfl

/-- Witness for the amended C6. -/
theorem c6_amended_witness :
    createCategory { name := "Work", vault_id := 1 } stOwner =
      Except.ok ({ id := 2, name := "Work", vault_id := 1 },
        { stOwner with categories := [{ id := 2, name := "Work", vault_id := 1 }], nextId := 3 }) ∧
    createCategory { name := "Work", vault_id := 9 } stOwner =
      Except.error Err.vaultNotFound := by
  exact ⟨(c6_amended_category_no_permission_gate _ stOwner).2 vFix rfl,
    (c6_amended_category_no_permission_gate _ stOwner).1 rfl⟩

/-! ## Claim C9 -/

/-- Byte entropy used for the C9 evaluation. -/
def entropyC9 : List Nat := List.replicate 32 7

/-- The vault `createVault` inserts on the C9 evaluation. -/
def vC9 : Vault :=
  { id := 2, name := "V", description := none, owner_id := 1
    encryption_key := bytesToHex entropyC9 }

/-- The store before the C9 `createVault` call: only user 1. -/
def stC9 : Store :=
  { users := [uFix 1], vaults := [], categories := [], passwordEntries := []
    secureNotes := [], creditCards := [], vaultSharing := [], nextId := 2 }

/-- The store after the C9 `createVault` call. -/
def stC9After : Store :=
  { users := [uFix 1], vaults := [vC9], categories := [], passwordEntries := []
    secureNotes := [], creditCards := [], vaultSharing := [], nextId := 3 }

/-- Claim C9 (counterexample): the claim says no operation of the
external interface returns the vault's stored encryption key, but
`createVault` returns the full inserted row: on a store holding only
user 1, the returned vault carries `encryption_key` equal to the stored
key material (hex of the 32 generated bytes), which is not empty. -/
theorem c9_counterexample_key_exposed :
    createVault entropyC9 { name := "V", description := none, owner_id := 1 } stC9 =
      Except.ok (vC9, stC9After) ∧
    vC9.encryption_key = bytesToHex entropyC9 ∧ vC9.encryption_key ≠ "" := by
  exact ⟨rfl, rfl, by decide⟩

/-- Claim C9 (amended): both named operations expose the key:
`createVault` returns the inserted vault row, whose `encryption_key` is
exactly the generated key material and which is stored as-is, and every
vault returned by `getUserVaults` is a stored vault row returned intact,
`encryption_key` field included — consistent with the spec's own
interface table, whose `createVault` output "includes generated key
material". -/
theorem c9_amended_key_returned :
    (∀ (entropy : List Nat) input s v s',
       createVault entropy input s = Except.ok (v, s') →
       v ∈ s'.vaults ∧ v.encryption_key = bytesToHex entropy) ∧
    (∀ uid s v, v ∈ getUserVaults uid s → v ∈ s.vaults) := by
  constructor
  · intro entropy input s v s' h
    obtain ⟨hv, hs⟩ := createVault_ok_shape h
    subst hs
    exact ⟨List.mem_append_right _ (List.mem_singleton.mpr rfl), by rw [hv]⟩
  · intro uid s v hmem
    have hsub : ∀ (l : List Vault) (seen : List Nat) (x : Vault),
        x ∈ dedupeByIdAux l seen → x ∈ l := by
      intro l
      induction l with
      | nil => intro seen x hx; simp [dedupeByIdAux] at hx
      | cons a t ih =>
        intro seen x hx
        rw [dedupeByIdAux] at hx
        by_cases hc : seen.contains a.id
        · rw [if_pos hc] at hx
          exact List.mem_cons_of_mem _ (ih _ _ hx)
        · rw [if_neg hc] at hx
          rcases List.mem_cons.mp hx with h | h
          · exact h ▸ List.mem_cons_self _ _
          · exact List.mem_cons_of_mem _ (ih _ _ h)
    have hx := hsub _ _ _ hmem
    rcases List.mem_append.mp hx with h | h
    · exact (List.mem_filter.mp h).1
    · simp only [List.mem_flatten, List.mem_map] at h
      obtain ⟨grp, ⟨w, hw, rfl⟩, hvg⟩ := h
      obtain ⟨_, _, hve⟩ := List.mem_map.mp hvg
      exact hve ▸ hw

/-- Witness for the amended C9. -/
theorem c9_amended_witness :
    vC9 ∈ stC9After.vaults ∧ vC9.encryption_key = bytesToHex entropyC9 := by
  exact c9_amended_key_returned.1 entropyC9
    { name := "V", description := none, owner_id := 1 } stC9 vC9 stC9After rfl

/-! ## Claim C10 -/

/-- A key that is not 64 hex characters (66 characters, trailing junk)
yet hex-decodes — with Node's truncation at the first invalid pair — to
exactly 32 bytes. -/
def keyBad : String := bytesToHex (List.replicate 32 0) ++ "zz"

/-- Vault 1 (owner 1) whose stored key is `keyBad`. -/
def vBad : Vault :=
  { id := 1, name := "V", description := none, owner_id := 1
    encryption_key := keyBad }

/-- Store with user 1 and the bad-key vault. -/
def stBad : Store :=
  { users := [uFix 1], vaults := [vBad], categories := [], passwordEntries := []
    secureNotes := [], creditCards := [], vaultSharing := [], nextId := 2 }

/-- The secure-note input used in the C10 evaluation. -/
def inpBad : CreateSecureNoteInput :=
  { title := "t", content := "c", vault_id := 1, category_id := none, created_by := 1 }

/-- The note row `createSecureNote` inserts, given the ciphertext. -/
def mkNoteRow (input : CreateSecureNoteInput) (s : Store) (encryptedContent : String) :
    SecureNote :=
  { id := s.nextId, title := input.title, encrypted_content := encryptedContent
    vault_id := input.vault_id, category_id := orNullNat input.category_id
    created_by := input.created_by }

/-- The note created on the bad-key vault. -/
def noteBad : SecureNote :=
  { id := 2, title := "t"
    encrypted_content :=
      bytesToHex ivZ ++ ":" ++ cpTest.aes256cbc (hexDecodeTrunc keyBad) ivZ "c"
    vault_id := 1, category_id := none, created_by := 1 }

/-- Claim C10 (counterexample): the claim says `createSecureNote` still
throws whenever the vault's stored `encryption_key` is not a
64-hex-character string; but Node's hex decoding truncates at the first
invalid pair, so the 66-character key `keyBad` (64 hex characters plus
`zz`) decodes to exactly 32 bytes and the call succeeds with all other
preconditions met. -/
theorem c10_counterexample_truncated_key_accepted :
    isHex64 keyBad = false ∧
    createSecureNote cpTest ivZ inpBad stBad =
      Except.ok (noteBad, { stBad with secureNotes := [noteBad], nextId := 3 }) := by
  exact ⟨by decide, rfl⟩

/-- Claim C10 (amended): with the vault found, the acting user found,
the access query nonempty and the category check passed,
`createSecureNote` succeeds exactly when the truncating hex decode of
the vault's stored `encryption_key` yields 32 bytes, and otherwise
throws the cipher's invalid-key error; every 64-hex-character key
decodes to 32 bytes, and every key generated by `createVault`
(hex of 32 random bytes) does. -/
theorem c10_amended_key_decode_length :
    (∀ cp (iv : List Nat) input s vault,
       s.vaults.find? (fun v => v.id == input.vault_id) = some vault →
       (s.users.find? (fun u => u.id == input.created_by)).isSome = true →
       (noteAccessRows s input.vault_id input.created_by).isEmpty = false →
       categoryCheck s input.category_id input.vault_id = true →
       ((∃ n s', createSecureNote cp iv input s = Except.ok (n, s')) ↔
          (hexDecodeTrunc vault.encryption_key).length = 32) ∧
       ((hexDecodeTrunc vault.encryption_key).length ≠ 32 →
          createSecureNote cp iv input s = Except.error Err.invalidKeyLength)) ∧
    (∀ k, isHex64 k = true → (hexDecodeTrunc k).length = 32) ∧
    (∀ (entropy : List Nat) input s v s',
       entropy.length = 32 → (∀ b ∈ entropy, b < 256) →
       createVault entropy input s = Except.ok (v, s') →
       (hexDecodeTrunc v.encryption_key).length = 32) := by
  refine ⟨?_, hex64_decodes_32, ?_⟩
  · intro cp iv input s vault hfind hfu hacc hcat
    cases hfu2 : s.users.find? (fun u => u.id == input.created_by) with
    | none => rw [hfu2] at hfu; simp at hfu
    | some u =>
    by_cases hk : (hexDecodeTrunc vault.encryption_key).length = 32
    · have henc : encryptContent cp iv input.content vault.encryption_key =
          Except.ok (bytesToHex iv ++ ":" ++
            cp.aes256cbc (hexDecodeTrunc vault.encryption_key) iv input.content) := by
        unfold encryptContent
        simp [hk]
      have heq : createSecureNote cp iv input s =
          Except.ok (mkNoteRow input s (bytesToHex iv ++ ":" ++
              cp.aes256cbc (hexDecodeTrunc vault.encryption_key) iv input.content),
            { s with
              secureNotes := s.secureNotes ++
                [mkNoteRow input s (bytesToHex iv ++ ":" ++
                  cp.aes256cbc (hexDecodeTrunc vault.encryption_key) iv input.content)],
              nextId := s.nextId + 1 }) := by
        unfold createSecureNote
        rw [hfind, hfu2]
        simp only [hacc, Bool.false_eq_true, if_false, hcat, if_true, henc]
        rfl
      refine ⟨iff_of_true ⟨_, _, heq⟩ hk, fun hcontra => absurd hk hcontra⟩
    · have henc : encryptContent cp iv input.content vault.encryption_key =
          Except.error Err.invalidKeyLength := by
        unfold encryptContent
        simp [hk]
      have heq : createSecureNote cp iv input s = Except.error Err.invalidKeyLength := by
        unfold createSecureNote
        rw [hfind, hfu2]
        simp only [hacc, Bool.false_eq_true, if_false, hcat, if_true, henc]
      refine ⟨iff_of_false ?_ hk, fun _ => heq⟩
      rintro ⟨n, s', hok⟩
      rw [heq] at hok
      exact Except.noConfusion hok
  · intro entropy input s v s' hlen hbytes h
    obtain ⟨hv, _⟩ := createVault_ok_shape h
    rw [hv]
    show (hexDecodeTrunc (bytesToHex entropy)).length = 32
    rw [hexDecode_bytesToHex entropy hbytes, hlen]

/-- Witness for the amended C10: on the valid 64-hex key of `stOwner`
the secure-note creation succeeds, and the generated key of the C9
vault-creation decodes to 32 bytes. -/
theorem c10_amended_witness :
    (∃ n s', createSecureNote cpTest ivZ inpBad stOwner = Except.ok (n, s')) ∧
    (hexDecodeTrunc vC9.encryption_key).length = 32 := by
  refine ⟨?_, ?_⟩
  · exact (c10_amended_key_decode_length.1 cpTest ivZ inpBad stOwner vFix rfl rfl rfl
      rfl).1.mpr (by decide)
  · exact c10_amended_key_decode_length.2.2 entropyC9
      { name := "V", description := none, owner_id := 1 } stC9 vC9 stC9After
      (by decide) (by decide) rfl

/-! ## Claim C5 -/

/-- When no stored category has the supplied id inside the target vault
(the category is absent, or lives in another vault), the shared category
precondition fails. -/
theorem categoryCheck_false (s : Store) (cid vid : Nat) (hc : cid ≠ 0)
    (hno : ∀ c ∈ s.categories, c.id = cid → c.vault_id ≠ vid) :
    categoryCheck s (some cid) vid = false := by
  unfold categoryCheck
  have ht : truthyNat (some cid) = true := by simp [truthyNat, hc]
  rw [if_pos ht]
  have hnil : categoryRows s cid vid = [] := by
    apply List.filter_eq_nil_iff.mpr
    intro c hcm
    simp only [Bool.and_eq_true, beq_iff_eq, not_and]
    intro h1
    exact hno c hcm h1
  simp [Option.getD_some, hnil]

/-- Claim C5: in each item handler, once the earlier checks pass, a
supplied category id with no matching row in the target vault — whether
the category does not exist or belongs to a different vault, the two
cases being indistinguishable to the query — fails with the
category-not-found error. -/
theorem c5_category_vault_mismatch :
    (∀ cp input s vault cid,
       s.vaults.find? (fun v => v.id == input.vault_id) = some vault →
       writeAccessGate s input.vault_id input.created_by vault = true →
       input.category_id = some cid → cid ≠ 0 →
       (∀ c ∈ s.categories, c.id = cid → c.vault_id ≠ input.vault_id) →
       createPasswordEntry cp input s = Except.error Err.categoryNotFound) ∧
    (∀ cp (iv : List Nat) input s vault cid,
       s.vaults.find? (fun v => v.id == input.vault_id) = some vault →
       (s.users.find? (fun u => u.id == input.created_by)).isSome = true →
       (noteAccessRows s input.vault_id input.created_by).isEmpty = false →
       input.category_id = some cid → cid ≠ 0 →
       (∀ c ∈ s.categories, c.id = cid → c.vault_id ≠ input.vault_id) →
       createSecureNote cp iv input s = Except.error Err.categoryNotFound) ∧
    (∀ cp (iv1 iv2 : List Nat) input s vault cid,
       (s.users.find? (fun u => u.id == input.created_by)).isSome = true →
       s.vaults.find? (fun v => v.id == input.vault_id) = some vault →
       writeAccessGate s input.vault_id input.created_by vault = true →
       input.category_id = some cid → cid ≠ 0 →
       (∀ c ∈ s.categories, c.id = cid → c.vault_id ≠ input.vault_id) →
       createCreditCard cp iv1 iv2 input s = Except.error Err.categoryNotFound) := by
  refine ⟨?_, ?_, ?_⟩
  · intro cp input s vault cid hfind hgate hcid hc hno
    have hccf := categoryCheck_false s cid input.vault_id hc hno
    unfold createPasswordEntry
    rw [hfind]
    simp [hgate, hcid, hccf]
  · intro cp iv input s vault cid hfind hfu hacc hcid hc hno
    have hccf := categoryCheck_false s cid input.vault_id hc hno
    cases hfu2 : s.users.find? (fun u => u.id == input.created_by) with
    | none => rw [hfu2] at hfu; simp at hfu
    | some u =>
      unfold createSecureNote
      rw [hfind, hfu2]
      simp [hacc, hcid, hccf]
  · intro cp iv1 iv2 input s vault cid hfu hfind hgate hcid hc hno
    have hccf := categoryCheck_false s cid input.vault_id hc hno
    cases hfu2 : s.users.find? (fun u => u.id == input.created_by) with
    | none => rw [hfu2] at hfu; simp at hfu
    | some u =>
      unfold createCreditCard
      rw [hfu2, hfind]
      simp [hgate, hcid, hccf]

/-- A second vault (id 3, owner 1) holding category 5. -/
def vOther : Vault :=
  { id := 3, name := "W", description := none, owner_id := 1
    encryption_key := keyHex64 }

/-- Store where category 5 belongs to vault 3, not vault 1. -/
def stMis : Store :=
  { users := [uFix 1], vaults := [vFix, vOther]
    categories := [{ id := 5, name := "Work", vault_id := 3 }]
    passwordEntries := [], secureNotes := [], creditCards := []
    vaultSharing := [], nextId := 6 }

/-- Witness for C5: the owner creating each item kind in vault 1 with
category 5 — which exists but belongs to vault 3 — gets
category-not-found, for all three handlers. -/
theorem c5_category_vault_mismatch_witness :
    createPasswordEntry cpTest
      { title := "t", username := none, password := "p", url := none, notes := none
        vault_id := 1, category_id := some 5, created_by := 1 } stMis =
      Except.error Err.categoryNotFound ∧
    createSecureNote cpTest ivZ
      { title := "t", content := "c", vault_id := 1, category_id := some 5
        created_by := 1 } stMis = Except.error Err.categoryNotFound ∧
    createCreditCard cpTest ivZ ivO
      { title := "t", cardholder_name := "n", card_number := "4", cvv := "1"
        expiry_month := 1, expiry_year := 2030, vault_id := 1, category_id := some 5
        created_by := 1 } stMis = Except.error Err.categoryNotFound := by
  refine ⟨c5_category_vault_mismatch.1 cpTest _ stMis vFix 5 rfl (by decide) rfl
      (by decide) (by decide),
    c5_category_vault_mismatch.2.1 cpTest ivZ _ stMis vFix 5 rfl rfl rfl rfl
      (by decide) (by decide),
    c5_category_vault_mismatch.2.2 cpTest ivZ ivO _ stMis vFix 5 rfl rfl (by decide)
      rfl (by decide) (by decide)⟩

/-! ## Claim C7 -/

/-- Claim C7 (spec-modelled `getVaultItems`): the operation is total (it
returns three collections and signals no error), each collection holds
exactly the stored items of that kind whose `vault_id` is the requested
vault and whose category matches the optional filter, and a collection
is empty exactly when no stored item of that kind matches. -/
theorem c7_get_vault_items_exact :
    ∀ s vid (cid : Option Nat),
      (∀ e, e ∈ (getVaultItems vid cid s).passwordEntries ↔
        e ∈ s.passwordEntries ∧ e.vault_id = vid ∧
          categoryFilterOk cid e.category_id = true) ∧
      (∀ n, n ∈ (getVaultItems vid cid s).secureNotes ↔
        n ∈ s.secureNotes ∧ n.vault_id = vid ∧
          categoryFilterOk cid n.category_id = true) ∧
      (∀ c, c ∈ (getVaultItems vid cid s).creditCards ↔
        c ∈ s.creditCards ∧ c.vault_id = vid ∧
          categoryFilterOk cid c.category_id = true) ∧
      ((getVaultItems vid cid s).passwordEntries = [] ↔
        ∀ e ∈ s.passwordEntries,
          ¬(e.vault_id = vid ∧ categoryFilterOk cid e.category_id = true)) ∧
      ((getVaultItems vid cid s).secureNotes = [] ↔
        ∀ n ∈ s.secureNotes,
          ¬(n.vault_id = vid ∧ categoryFilterOk cid n.category_id = true)) ∧
      ((getVaultItems vid cid s).creditCards = [] ↔
        ∀ c ∈ s.creditCards,
          ¬(c.vault_id = vid ∧ categoryFilterOk cid c.category_id = true)) := by
  intro s vid cid
  refine ⟨?_, ?_, ?_, ?_, ?_, ?_⟩ <;>
    simp [getVaultItems, List.mem_filter, List.filter_eq_nil_iff, and_assoc]

/-! ## Claim C8 -/

/-- Claim C8: `searchItems` with an empty query string applies no text
condition at all: each bucket that the type filter allows holds exactly
the stored items passing the vault and category equality filters, and
the result is an ordinary value, not an error. -/
theorem c8_empty_query_matches_all :
    ∀ s input, input.query = "" →
      (∀ e, e ∈ (searchItems input s).passwordEntries ↔
        (input.type.isNone || input.type == some ItemType.password) = true ∧
          e ∈ s.passwordEntries ∧ vaultFilterOk input.vault_id e.vault_id = true ∧
          categoryFilterOk input.category_id e.category_id = true) ∧
      (∀ n, n ∈ (searchItems input s).secureNotes ↔
        (input.type.isNone || input.type == some ItemType.note) = true ∧
          n ∈ s.secureNotes ∧ vaultFilterOk input.vault_id n.vault_id = true ∧
          categoryFilterOk input.category_id n.category_id = true) ∧
      (∀ c, c ∈ (searchItems input s).creditCards ↔
        (input.type.isNone || input.type == some ItemType.credit_card) = true ∧
          c ∈ s.creditCards ∧ vaultFilterOk input.vault_id c.vault_id = true ∧
          categoryFilterOk input.category_id c.category_id = true) := by
  intro s input hq
  have htrim : (jsTrim input.query != "") = false := by
    rw [hq]
    decide
  refine ⟨?_, ?_, ?_⟩ <;> intro x <;>
    by_cases hty : (input.type.isNone ||
        input.type == some ItemType.password) = true <;>
    by_cases hty2 : (input.type.isNone || input.type == some ItemType.note) = true <;>
    by_cases hty3 : (input.type.isNone ||
        input.type == some ItemType.credit_card) = true <;>
    simp [searchItems, htrim, hty, hty2, hty3, List.mem_filter, and_assoc]

/-- A password entry stored in vault 1 with no category. -/
def pwFix : PasswordEntry :=
  { id := 4, title := "T", username := none, encrypted_password := "x", url := none
    notes := none, vault_id := 1, category_id := none, created_by := 1 }

/-- Store holding one password entry in vault 1. -/
def stSearch : Store :=
  { users := [uFix 1], vaults := [vFix], categories := [], passwordEntries := [pwFix]
    secureNotes := [], creditCards := [], vaultSharing := [], nextId := 5 }

/-- Witness for C8: with the empty query and no filters, the stored
password entry is returned. -/
theorem c8_empty_query_witness :
    pwFix ∈ (searchItems
      { query := "", vault_id := none, category_id := none, type := none }
      stSearch).passwordEntries := by
  exact ((c8_empty_query_matches_all stSearch
    { query := "", vault_id := none, category_id := none, type := none } rfl).1
    pwFix).mpr ⟨by decide, by decide, by decide, by decide⟩

/-! ## Claim C3 -/

/-- The password-entry row `createPasswordEntry` inserts. -/
def mkPwRow (cp : CryptoPrim) (input : CreatePasswordEntryInput) (s : Store)
    (key : String) : PasswordEntry :=
  { id := s.nextId, title := input.title, username := orNullStr input.username
    encrypted_password := encryptPassword cp input.password key
    url := orNullStr input.url, notes := orNullStr input.notes
    vault_id := input.vault_id, category_id := orNullNat input.category_id
    created_by := input.created_by }

/-- The credit-card row `createCreditCard` inserts. -/
def mkCardRow (cp : CryptoPrim) (iv1 iv2 : List Nat) (input : CreateCreditCardInput)
    (s : Store) (key : String) : CreditCard :=
  { id := s.nextId, title := input.title, cardholder_name := input.cardholder_name
    encrypted_card_number := encryptData cp iv1 input.card_number key
    encrypted_cvv := encryptData cp iv2 input.cvv key
    expiry_month := input.expiry_month, expiry_year := input.expiry_year
    vault_id := input.vault_id, category_id := orNullNat input.category_id
    created_by := input.created_by }

theorem createPasswordEntry_gate_eq (cp : CryptoPrim)
    (input : CreatePasswordEntryInput) (s : Store) (vault : Vault)
    (hfind : s.vaults.find? (fun v => v.id == input.vault_id) = some vault)
    (hcat : categoryCheck s input.category_id input.vault_id = true)
    (hg : writeAccessGate s input.vault_id input.created_by vault = true) :
    createPasswordEntry cp input s =
      Except.ok (mkPwRow cp input s vault.encryption_key,
        { s with passwordEntries := s.passwordEntries ++
            [mkPwRow cp input s vault.encryption_key], nextId := s.nextId + 1 }) := by
  unfold createPasswordEntry
  rw [hfind]
  simp only [hg, hcat, eq_self_iff_true, if_true]
  rfl

theorem createPasswordEntry_gate_err (cp : CryptoPrim)
    (input : CreatePasswordEntryInput) (s : Store) (vault : Vault)
    (hfind : s.vaults.find? (fun v => v.id == input.vault_id) = some vault)
    (hg : writeAccessGate s input.vault_id input.created_by vault = false) :
    createPasswordEntry cp input s = Except.error Err.insufficientPermissions := by
  unfold createPasswordEntry
  rw [hfind]
  simp [hg]

theorem createCreditCard_gate_eq (cp : CryptoPrim) (iv1 iv2 : List Nat)
    (input : CreateCreditCardInput) (s : Store) (vault : Vault) (u : UserRow)
    (hfu : s.users.find? (fun x => x.id == input.created_by) = some u)
    (hfind : s.vaults.find? (fun v => v.id == input.vault_id) = some vault)
    (hcat : categoryCheck s input.category_id input.vault_id = true)
    (hg : writeAccessGate s input.vault_id input.created_by vault = true) :
    createCreditCard cp iv1 iv2 input s =
      Except.ok (mkCardRow cp iv1 iv2 input s vault.encryption_key,
        { s with
          creditCards := s.creditCards ++
            [mkCardRow cp iv1 iv2 input s vault.encryption_key],
          nextId := s.nextId + 1 }) := by
  unfold createCreditCard
  rw [hfu, hfind]
  simp only [hg, hcat, eq_self_iff_true, if_true]
  rfl

theorem createCreditCard_gate_err (cp : CryptoPrim) (iv1 iv2 : List Nat)
    (input : CreateCreditCardInput) (s : Store) (vault : Vault) (u : UserRow)
    (hfu : s.users.find? (fun x => x.id == input.created_by) = some u)
    (hfind : s.vaults.find? (fun v => v.id == input.vault_id) = some vault)
    (hg : writeAccessGate s input.vault_id input.created_by vault = false) :
    createCreditCard cp iv1 iv2 input s = Except.error Err.insufficientPermissions := by
  unfold createCreditCard
  rw [hfu, hfind]
  simp [hg]

/-- Claim C3: the effective permission each write path uses is the
spec's resolver: for the three item-creation handlers (their other
preconditions held fixed: category check passing, acting user present
where checked, and a decodable key for the note path), creation
succeeds exactly when the caller resolves to `write` or `admin` — the
owner resolves to `admin` even with no sharing records — and fails with
the insufficient-permissions error exactly otherwise (no record, or a
`read` record); and `shareVault` fails with the insufficient-permissions
error exactly when the caller does not resolve to `admin`. -/
theorem c3_write_gate_matches_resolver :
    (∀ cp input s vault,
       s.vaults.find? (fun v => v.id == input.vault_id) = some vault →
       sharingPairUnique s →
       categoryCheck s input.category_id input.vault_id = true →
       ((∃ e s', createPasswordEntry cp input s = Except.ok (e, s')) ↔
          isWriteLevel (resolvePermission s vault input.created_by)) ∧
       (createPasswordEntry cp input s = Except.error Err.insufficientPermissions ↔
          ¬ isWriteLevel (resolvePermission s vault input.created_by))) ∧
    (∀ cp (iv : List Nat) input s vault,
       s.vaults.find? (fun v => v.id == input.vault_id) = some vault →
       sharingPairUnique s → vaultIdsUnique s →
       (s.users.find? (fun u => u.id == input.created_by)).isSome = true →
       categoryCheck s input.category_id input.vault_id = true →
       (hexDecodeTrunc vault.encryption_key).length = 32 →
       ((∃ n s', createSecureNote cp iv input s = Except.ok (n, s')) ↔
          isWriteLevel (resolvePermission s vault input.created_by)) ∧
       (createSecureNote cp iv input s = Except.error Err.insufficientPermissions ↔
          ¬ isWriteLevel (resolvePermission s vault input.created_by))) ∧
    (∀ cp (iv1 iv2 : List Nat) input s vault,
       (s.users.find? (fun u => u.id == input.created_by)).isSome = true →
       s.vaults.find? (fun v => v.id == input.vault_id) = some vault →
       sharingPairUnique s →
       categoryCheck s input.category_id input.vault_id = true →
       ((∃ c s', createCreditCard cp iv1 iv2 input s = Except.ok (c, s')) ↔
          isWriteLevel (resolvePermission s vault input.created_by)) ∧
       (createCreditCard cp iv1 iv2 input s = Except.error Err.insufficientPermissions ↔
          ¬ isWriteLevel (resolvePermission s vault input.created_by))) ∧
    (∀ input s vault,
       s.vaults.find? (fun v => v.id == input.vault_id) = some vault →
       (s.users.find? (fun u => u.id == input.shared_with_user_id)).isNone = false →
       (s.users.find? (fun u => u.id == input.shared_by_user_id)).isNone = false →
       sharingPairUnique s →
       (shareVault input s = Except.error Err.insufficientPermissions ↔
          resolvePermission s vault input.shared_by_user_id ≠
            some PermissionLevel.admin)) := by
  refine ⟨?_, ?_, ?_, ?_⟩
  · intro cp input s vault hfind hpu hcat
    have hvid : vault.id = input.vault_id := by simpa using List.find?_some hfind
    have hgi := writeGate_iff_resolve s vault input.created_by hpu
    rw [hvid] at hgi
    by_cases hw : isWriteLevel (resolvePermission s vault input.created_by)
    · have heq := createPasswordEntry_gate_eq cp input s vault hfind hcat (hgi.mpr hw)
      refine ⟨iff_of_true ⟨_, _, heq⟩ hw, iff_of_false ?_ (not_not_intro hw)⟩
      rw [heq]
      exact fun hcontra => Except.noConfusion hcontra
    · have hgf : writeAccessGate s input.vault_id input.created_by vault = false :=
        Bool.eq_false_iff.mpr (fun hgb => hw (hgi.mp hgb))
      have heq := createPasswordEntry_gate_err cp input s vault hfind hgf
      refine ⟨iff_of_false ?_ hw, iff_of_true heq hw⟩
      rintro ⟨e, s', hok⟩
      rw [heq] at hok
      exact Except.noConfusion hok
  · intro cp iv input s vault hfind hpu hvu hfu hcat hkey
    have hvid : vault.id = input.vault_id := by simpa using List.find?_some hfind
    have hgi := writeGate_iff_resolve s vault input.created_by hpu
    rw [hvid] at hgi
    have hni := noteAccessRows_nonempty_iff s input.vault_id input.created_by vault
      hvu hfind
    cases hfu2 : s.users.find? (fun u => u.id == input.created_by) with
    | none => rw [hfu2] at hfu; simp at hfu
    | some u =>
    by_cases hw : isWriteLevel (resolvePermission s vault input.created_by)
    · have hacc : (noteAccessRows s input.vault_id input.created_by).isEmpty = false :=
        hni.mpr (hgi.mpr hw)
      have henc : encryptContent cp iv input.content vault.encryption_key =
          Except.ok (bytesToHex iv ++ ":" ++
            cp.aes256cbc (hexDecodeTrunc vault.encryption_key) iv input.content) := by
        unfold encryptContent
        simp [hkey]
      have heq : createSecureNote cp iv input s =
          Except.ok (mkNoteRow input s (bytesToHex iv ++ ":" ++
              cp.aes256cbc (hexDecodeTrunc vault.encryption_key) iv input.content),
            { s with
              secureNotes := s.secureNotes ++
                [mkNoteRow input s (bytesToHex iv ++ ":" ++
                  cp.aes256cbc (hexDecodeTrunc vault.encryption_key) iv input.content)],
              nextId := s.nextId + 1 }) := by
        unfold createSecureNote
        rw [hfind, hfu2]
        simp only [hacc, Bool.false_eq_true, if_false, hcat, if_true, henc]
        rfl
      refine ⟨iff_of_true ⟨_, _, heq⟩ hw, iff_of_false ?_ (not_not_intro hw)⟩
      rw [heq]
      exact fun hcontra => Except.noConfusion hcontra
    · have hacc : (noteAccessRows s input.vault_id input.created_by).isEmpty = true := by
        cases hb : (noteAccessRows s input.vault_id input.created_by).isEmpty with
        | false => exact absurd (hgi.mp (hni.mp hb)) hw
        | true => rfl
      have heq : createSecureNote cp iv input s =
          Except.error Err.insufficientPermissions := by
        unfold createSecureNote
        rw [hfind, hfu2]
        simp [hacc]
      refine ⟨iff_of_false ?_ hw, iff_of_true heq hw⟩
      rintro ⟨n, s', hok⟩
      rw [heq] at hok
      exact Except.noConfusion hok
  · intro cp iv1 iv2 input s vault hfu hfind hpu hcat
    have hvid : vault.id = input.vault_id := by simpa using List.find?_some hfind
    have hgi := writeGate_iff_resolve s vault input.created_by hpu
    rw [hvid] at hgi
    cases hfu2 : s.users.find? (fun u => u.id == input.created_by) with
    | none => rw [hfu2] at hfu; simp at hfu
    | some u =>
    by_cases hw : isWriteLevel (resolvePermission s vault input.created_by)
    · have heq := createCreditCard_gate_eq cp iv1 iv2 input s vault u hfu2 hfind hcat
        (hgi.mpr hw)
      refine ⟨iff_of_true ⟨_, _, heq⟩ hw, iff_of_false ?_ (not_not_intro hw)⟩
      rw [heq]
      exact fun hcontra => Except.noConfusion hcontra
    · have hgf : writeAccessGate s input.vault_id input.created_by vault = false :=
        Bool.eq_false_iff.mpr (fun hgb => hw (hgi.mp hgb))
      have heq := createCreditCard_gate_err cp iv1 iv2 input s vault u hfu2 hfind hgf
      refine ⟨iff_of_false ?_ hw, iff_of_true heq hw⟩
      rintro ⟨c, s', hok⟩
      rw [heq] at hok
      exact Except.noConfusion hok
  · intro input s vault hfind htg hby hpu
    have hvid : vault.id = input.vault_id := by simpa using List.find?_some hfind
    have hgi := adminGate_iff_resolve s vault input.shared_by_user_id hpu
    rw [hvid] at hgi
    by_cases ha : resolvePermission s vault input.shared_by_user_id =
        some PermissionLevel.admin
    · refine iff_of_false ?_ (not_not_intro ha)
      intro hcontra
      unfold shareVault at hcontra
      rw [hfind] at hcontra
      simp only [htg, Bool.false_eq_true, if_false, hby, hgi.mpr ha, if_true] at hcontra
      split at hcontra
      · simp at hcontra
      split at hcontra
      · simp at hcontra
      split at hcontra
      · simp at hcontra
      · simp at hcontra
    · have hgf : adminAccessGate s input.vault_id input.shared_by_user_id vault = false :=
        Bool.eq_false_iff.mpr (fun hgb => ha (hgi.mp hgb))
      have heq : shareVault input s = Except.error Err.insufficientPermissions := by
        unfold shareVault
        rw [hfind]
        simp [htg, hby, hgf]
      exact iff_of_true heq ha

/-- Sharing record: vault 1 shared with user 2 at `write` by user 1. -/
def shWrite : VaultSharing :=
  { id := 10, vault_id := 1, shared_with_user_id := 2, shared_by_user_id := 1
    permission_level := PermissionLevel.write }

/-- Sharing record: vault 1 shared with user 3 at `read` by user 1. -/
def shRead : VaultSharing :=
  { id := 11, vault_id := 1, shared_with_user_id := 3, shared_by_user_id := 1
    permission_level := PermissionLevel.read }

/-- Store with users 1–3, vault 1 (owner 1), a write grant to user 2 and
a read grant to user 3. -/
def stShare : Store :=
  { users := [uFix 1, uFix 2, uFix 3], vaults := [vFix], categories := []
    passwordEntries := [], secureNotes := [], creditCards := []
    vaultSharing := [shWrite, shRead], nextId := 12 }

/-- Password-entry input by the owner (user 1) into vault 1. -/
def inpPwOwner : CreatePasswordEntryInput :=
  { title := "t", username := none, password := "p", url := none, notes := none
    vault_id := 1, category_id := none, created_by := 1 }

/-- Password-entry input by the read-level user 3 into vault 1. -/
def inpPwRead : CreatePasswordEntryInput :=
  { title := "t", username := none, password := "p", url := none, notes := none
    vault_id := 1, category_id := none, created_by := 3 }

/-- Share input by the write-level user 2 on vault 1. -/
def inpShareByWrite : ShareVaultInput :=
  { vault_id := 1, shared_with_user_id := 3, shared_by_user_id := 2
    permission_level := PermissionLevel.read }

/-- Witness for C3: on `stShare` the owner's password-entry creation
succeeds, the read-level user's fails with insufficient permissions, and
the write-level user's attempt to share fails with insufficient
permissions. -/
theorem c3_write_gate_matches_resolver_witness :
    (∃ e s', createPasswordEntry cpTest inpPwOwner stShare = Except.ok (e, s')) ∧
    createPasswordEntry cpTest inpPwRead stShare =
      Except.error Err.insufficientPermissions ∧
    shareVault inpShareByWrite stShare = Except.error Err.insufficientPermissions := by
  have hpu : sharingPairUnique stShare := by
    simp [sharingPairUnique, stShare, List.pairwise_cons, shWrite, shRead]
  refine ⟨?_, ?_, ?_⟩
  · exact (c3_write_gate_matches_resolver.1 cpTest inpPwOwner stShare vFix rfl hpu
      rfl).1.mpr (Or.inr (by decide))
  · refine (c3_write_gate_matches_resolver.1 cpTest inpPwRead stShare vFix rfl hpu
      rfl).2.mpr ?_
    rintro (h | h) <;> exact absurd h (by decide)
  · exact (c3_write_gate_matches_resolver.2.2.2 inpShareByWrite stShare vFix rfl rfl
      rfl hpu).mpr (by decide)

/-! ## Claim C4 -/

/-- Claim C4: every store reachable from the empty database by the
core's operations satisfies the three VaultSharing invariants (at most
one record per (vault, shared_with_user) pair, no grant to the vault's
owner, no self-grant), and a second `shareVault` call with the input of
a just-succeeded call always fails with the already-shared error and
changes nothing. -/
theorem c4_sharing_invariants :
    (∀ s, Reachable s → sharingInvariants s) ∧
    (∀ input s r s', shareVault input s = Except.ok (r, s') →
       shareVault input s' = Except.error Err.alreadyShared) := by
  constructor
  · intro s h
    exact (storeInv_reachable h).2.2
  · intro input s r s' h
    obtain ⟨vault, hfind, htg, hby, hgate, hself, howner, hnodup, hr, hs⟩ :=
      shareVault_ok_shape h
    have hsv : s'.vaults = s.vaults := by rw [hs]
    have hsu : s'.users = s.users := by rw [hs]
    have hssh : s'.vaultSharing = s.vaultSharing ++ [r] := by rw [hs]
    have hfind2 : s'.vaults.find? (fun v => v.id == input.vault_id) = some vault := by
      rw [hsv]; exact hfind
    have htg2 : (s'.users.find?
        (fun u => u.id == input.shared_with_user_id)).isNone = false := by
      rw [hsu]; exact htg
    have hby2 : (s'.users.find?
        (fun u => u.id == input.shared_by_user_id)).isNone = false := by
      rw [hsu]; exact hby
    have hmemr : r ∈ pairShareRows s' input.vault_id input.shared_with_user_id := by
      rw [pairShareRows, List.mem_filter, hssh]
      refine ⟨List.mem_append_right _ (List.mem_singleton.mpr rfl), ?_⟩
      rw [hr]
      simp
    have hemp2 : (pairShareRows s' input.vault_id
        input.shared_with_user_id).isEmpty = false :=
      List.isEmpty_eq_false_iff_exists_mem.mpr ⟨r, hmemr⟩
    have hgate2 : adminAccessGate s' input.vault_id input.shared_by_user_id vault =
        true := by
      unfold adminAccessGate at hgate ⊢
      have hgate3 : vault.owner_id = input.shared_by_user_id ∨
          (adminShareRows s input.vault_id input.shared_by_user_id).isEmpty = false := by
        simpa using hgate
      rcases hgate3 with how | hsome
      · simp [how]
      · rw [List.isEmpty_eq_false_iff_exists_mem] at hsome
        obtain ⟨x, hx⟩ := hsome
        rw [adminShareRows, List.mem_filter] at hx
        have hx2 : x ∈ adminShareRows s' input.vault_id input.shared_by_user_id := by
          rw [adminShareRows, List.mem_filter, hssh]
          exact ⟨List.mem_append_left _ hx.1, hx.2⟩
        have hse : (adminShareRows s' input.vault_id
            input.shared_by_user_id).isEmpty = false :=
          List.isEmpty_eq_false_iff_exists_mem.mpr ⟨x, hx2⟩
        simp [hse]
    have hselfb : (input.shared_with_user_id == input.shared_by_user_id) = false := by
      simpa using hself
    have hownerb : (input.shared_with_user_id == vault.owner_id) = false := by
      simpa using howner
    unfold shareVault
    rw [hfind2]
    simp only [htg2, hby2, Bool.false_eq_true, if_false, hgate2, if_true, hselfb,
      hownerb, hemp2]

/-- Share input: vault 1 to user 2 at `write` by owner 1. -/
def inpC4 : ShareVaultInput :=
  { vault_id := 1, shared_with_user_id := 2, shared_by_user_id := 1
    permission_level := PermissionLevel.write }

/-- Store with users 1 and 2, vault 1 (owner 1), no grants. -/
def stTwoUsers : Store :=
  { users := [uFix 1, uFix 2], vaults := [vFix], categories := []
    passwordEntries := [], secureNotes := [], creditCards := []
    vaultSharing := [], nextId := 3 }

/-- The record the first `shareVault` call inserts. -/
def rC4 : VaultSharing :=
  { id := 3, vault_id := 1, shared_with_user_id := 2, shared_by_user_id := 1
    permission_level := PermissionLevel.write }

/-- Store after the first successful `shareVault` call. -/
def stTwoUsersShared : Store :=
  { stTwoUsers with vaultSharing := [rC4], nextId := 4 }

/-- Witness for C4: the empty database satisfies the invariants, and on
the concrete store where sharing vault 1 with user 2 just succeeded, the
identical second call fails with the already-shared error. -/
theorem c4_sharing_invariants_witness :
    sharingInvariants emptyStore ∧
    shareVault inpC4 stTwoUsersShared = Except.error Err.alreadyShared := by
  refine ⟨c4_sharing_invariants.1 emptyStore Reachable.init, ?_⟩
  exact c4_sharing_invariants.2 inpC4 stTwoUsers rC4 stTwoUsersShared rfl
